import Mathlib

set_option maxHeartbeats 1000000

/-
Verification of src/elefant/data/annotation_action_mapping.py.

Shallow embedding conventions:
 - numpy float64 values are idealised as real numbers (ℝ); values that the
   Python code keeps exact (ints, rational mouse deltas, int64 array cells)
   are embedded as ℤ / ℚ so the decoder is fully executable;
 - numpy operations on 2-element camera arrays are embedded componentwise;
 - fallible Python code (raised exceptions) is embedded with Except PyError;
 - the constants module elefant.data.const is not part of the sources, so the
   tables it provides (button vocabulary, keyboard mapping, ignored keys,
   camera scaler, NOOP action) are modelled from the spec as explicit
   parameters or named constants, each marked in its doc comment.
-/

/-- Python exception kinds raised by the embedded code.  `unsupportedType` is
the `ValueError("Unsupported type: ...")` raised at the end of
batch_recursive_objects, carrying the name of the offending type; `valueError`
covers the other ValueErrors (attrs validator, numpy concatenate). -/
inductive PyError where
  | indexError : PyError
  | keyError : String → PyError
  | attributeError : String → PyError
  | assertionError : PyError
  | valueError : PyError
  | typeError : PyError
  | unsupportedType : String → PyError
deriving DecidableEq

/-- np.round: round half to even (banker's rounding), returning an integer, as
`np.round(...).astype(np.int64)` does. -/
noncomputable def np_round (x : ℝ) : ℤ :=
  if x - ⌊x⌋ < 1 / 2 then ⌊x⌋
  else if 1 / 2 < x - ⌊x⌋ then ⌊x⌋ + 1
  else if ⌊x⌋ % 2 = 0 then ⌊x⌋ else ⌊x⌋ + 1

/-- np.sign on a real scalar. -/
noncomputable def npSign (x : ℝ) : ℝ :=
  if x < 0 then -1 else if 0 < x then 1 else 0

/-- np.clip(x, lo, hi) = np.minimum(hi, np.maximum(lo, x)) on a scalar. -/
noncomputable def npClip (x lo hi : ℝ) : ℝ := min hi (max lo x)

/-- The CameraQuantizer configuration record (attrs class), fields as in the
source: camera_maxval, camera_binsize, quantization_scheme, mu. -/
structure CameraQuantizer where
  camera_maxval : ℤ
  camera_binsize : ℤ
  quantization_scheme : String
  mu : ℚ
deriving DecidableEq

/-- CameraQuantizer construction.  attrs runs the declared validators at
construction time: only quantization_scheme carries a validator
(`attr.validators.in_([LINEAR, MU_LAW])`, raising ValueError); the fields
camera_maxval, camera_binsize and mu are plain attributes with no validator. -/
def mkCameraQuantizer (camera_maxval camera_binsize : ℤ) (quantization_scheme : String)
    (mu : ℚ) : Except PyError CameraQuantizer :=
  if quantization_scheme = "linear" ∨ quantization_scheme = "mu_law" then
    .ok (.mk camera_maxval camera_binsize quantization_scheme mu)
  else
    .error .valueError

/-- CameraQuantizer.discretize on one camera component: clip to
[-maxval, maxval], optionally mu-law encode, then linear quantization
`round((x + maxval) / binsize)`. -/
noncomputable def CameraQuantizer.discretize (q : CameraQuantizer) (x : ℝ) : ℤ :=
  let M : ℝ := (q.camera_maxval : ℤ)
  let x1 : ℝ := npClip x (-M) M
  let x2 : ℝ :=
    if q.quantization_scheme = "mu_law" then
      (npSign (x1 / M) * (Real.log (1 + (q.mu : ℝ) * |x1 / M|) / Real.log (1 + (q.mu : ℝ)))) * M
    else x1
  np_round ((x2 + M) / (q.camera_binsize : ℤ))

/-- CameraQuantizer.undiscretize on one camera component: linear dequantize
`bin * binsize - maxval`, then optionally mu-law decode. -/
noncomputable def CameraQuantizer.undiscretize (q : CameraQuantizer) (b : ℤ) : ℝ :=
  let M : ℝ := (q.camera_maxval : ℤ)
  let x : ℝ := (b : ℤ) * ((q.camera_binsize : ℤ) : ℝ) - M
  if q.quantization_scheme = "mu_law" then
    (npSign (x / M) * (1 / (q.mu : ℝ)) * ((1 + (q.mu : ℝ)) ^ |x / M| - 1)) * M
  else x

/- ------------------------------------------------------------------ -/
/- Event decoding: ProtoToTorchActionMapper.annotation_action_to_env_action -/

/-- The mouse part of a LowLevelAction proto record. -/
structure MouseRecord where
  dx : ℚ
  dy : ℚ
  buttons : List ℤ
deriving DecidableEq

/-- The keyboard part of a LowLevelAction proto record. -/
structure KeyboardRecord where
  keys : List String
deriving DecidableEq

/-- A LowLevelAction proto record (json_action), as consumed by the decoder. -/
structure AnnotationEvent where
  keyboard : KeyboardRecord
  mouse : MouseRecord
deriving DecidableEq

/-- The env action built by the decoder: a python dict of button values plus
the `camera` entry.  The code reassigns `env_action["camera"] = np.array([0, 0])`,
an int64 array, so the camera components are embedded as integers: assigning a
float into this array truncates toward zero. -/
structure EnvActionD where
  buttons : List (String × ℤ)
  camera : ℤ × ℤ
deriving DecidableEq

/-- Python dict assignment `d[k] = v`: replace the value in place, or append a
fresh key at the end. -/
def setButton (bs : List (String × ℤ)) (k : String) (v : ℤ) : List (String × ℤ) :=
  match bs with
  | [] => [(k, v)]
  | (k2, v2) :: rest =>
      if k2 = k then (k, v) :: rest else (k2, v2) :: setButton rest k v

/-- Assignment of a float value into an int64 numpy array cell: C-style
conversion truncates toward zero. -/
def float_to_int64 (q : ℚ) : ℤ := if 0 ≤ q then ⌊q⌋ else ⌈q⌉

/-- Intermediate decoder state: the env action being built and the
`is_null_action` flag. -/
structure DecodeState where
  act : EnvActionD
  is_null_action : Bool
deriving DecidableEq

/-- Modelled from the spec: NOOP_ACTION (elefant.data.const is not in src)
initialises every vocabulary button to 0; the decoder then replaces camera by
the integer array [0, 0]. -/
def noopButtons (vocab : List String) : List (String × ℤ) :=
  vocab.map (fun k => (k, 0))

/-- The keyboard loop of the decoder: a key found in KEYBOARD_BUTTON_MAPPING
sets its button to 1 and clears is_null_action; ignored keys are skipped; any
other key only produces a diagnostic print and is skipped. -/
def decodeKeys (kbMap : List (String × String)) (ignored : List String)
    (keys : List String) (s : DecodeState) : DecodeState :=
  keys.foldl
    (fun st key =>
      match kbMap.lookup key with
      | some name =>
          DecodeState.mk (EnvActionD.mk (setButton st.act.buttons name 1) st.act.camera) false
      | none =>
          -- `key in IGNORED_KEYS` is skipped silently, otherwise a print;
          -- either way the state is unchanged
          st)
    s

/-- The mouse.dy branch: `camera_action[0] = mouse.dy * CAMERA_SCALER` if dy is
truthy (clearing is_null_action), else `camera_action[0] = 0.0`. -/
def decodeCamY (scaler : ℚ) (dy : ℚ) (s : DecodeState) : DecodeState :=
  if dy ≠ 0 then
    DecodeState.mk
      (EnvActionD.mk s.act.buttons (float_to_int64 (dy * scaler), s.act.camera.2)) false
  else
    DecodeState.mk (EnvActionD.mk s.act.buttons (0, s.act.camera.2)) s.is_null_action

/-- The mouse.dx branch: `camera_action[1] = mouse.dx * CAMERA_SCALER` if dx is
truthy (clearing is_null_action), else `camera_action[1] = 0.0`. -/
def decodeCamX (scaler : ℚ) (dx : ℚ) (s : DecodeState) : DecodeState :=
  if dx ≠ 0 then
    DecodeState.mk
      (EnvActionD.mk s.act.buttons (s.act.camera.1, float_to_int64 (dx * scaler))) false
  else
    DecodeState.mk (EnvActionD.mk s.act.buttons (s.act.camera.1, 0)) s.is_null_action

/-- The out-of-range camera reset: a component with absolute value above 180 is
set back to 0; the null flag is untouched. -/
def decodeClamp (s : DecodeState) : DecodeState :=
  let c1 : ℤ := if 180 < |s.act.camera.1| then 0 else s.act.camera.1
  let c2 : ℤ := if 180 < |s.act.camera.2| then 0 else s.act.camera.2
  DecodeState.mk (EnvActionD.mk s.act.buttons (c1, c2)) s.is_null_action

/-- The mouse-button branch: inside `if mouse.buttons:`, button code 0 sets
attack and code 2 sets use, each clearing is_null_action; other codes are not
inspected. -/
def decodeMouseButtons (btns : List ℤ) (s : DecodeState) : DecodeState :=
  if btns = [] then s
  else
    let s1 :=
      if 0 ∈ btns then
        DecodeState.mk (EnvActionD.mk (setButton s.act.buttons "attack" 1) s.act.camera) false
      else s
    if 2 ∈ btns then
      DecodeState.mk (EnvActionD.mk (setButton s1.act.buttons "use" 1) s1.act.camera) false
    else s1

/-- ProtoToTorchActionMapper.annotation_action_to_env_action.  The static
tables (KEYBOARD_BUTTON_MAPPING, IGNORED_KEYS, CAMERA_SCALER, buttons of
NOOP_ACTION) live in elefant.data.const, which is not part of the sources, so
they are passed as explicit parameters (modelled from the spec). -/
def annotation_action_to_env_action (kbMap : List (String × String))
    (ignored : List String) (camera_scaler : ℚ) (vocab : List String)
    (ev : AnnotationEvent) : EnvActionD × Bool :=
  let s0 := DecodeState.mk (EnvActionD.mk (noopButtons vocab) (0, 0)) true
  let s1 := decodeKeys kbMap ignored ev.keyboard.keys s0
  let s2 := decodeCamY camera_scaler ev.mouse.dy s1
  let s3 := decodeCamX camera_scaler ev.mouse.dx s2
  let s4 := decodeClamp s3
  let s5 := decodeMouseButtons ev.mouse.buttons s4
  (s5.act, s5.is_null_action)

/-- Modelled from the spec: the example keyboard-key-to-button table entry
mapping the forward key to the `forward` button. -/
def kbMapEx : List (String × String) := [("key.keyboard.w", "forward")]

/-- Modelled from the spec: the example vocabulary [forward, attack, use]. -/
def vocabEx : List String := ["forward", "attack", "use"]

/-- Modelled from the spec: CAMERA_SCALER, the camera sensitivity 0.15. -/
def CAMERA_SCALER : ℚ := 3 / 20

/-- The concrete example event: forward key held, mouse.dx = 90, mouse.dy = 0,
mouse button 0 held. -/
def evEx : AnnotationEvent := .mk (.mk ["key.keyboard.w"]) (.mk 90 0 [0])

/- ------------------------------------------------------------------ -/
/- ActionTransformer -/

/-- An env-format action as consumed by ActionTransformer: a dict of button
values plus a continuous camera pair. -/
structure EnvActionT where
  buttons : List (String × ℤ)
  camera : ℝ × ℝ

/-- A policy-format action: the stacked button vector and the discretized
camera bin pair. -/
structure PolicyActionT where
  buttons : List ℤ
  camera : ℤ × ℤ
deriving DecidableEq

/-- ActionTransformer.env2policy: the button vector reads each entry of
Buttons.ALL from the action dict (missing keys default to the zero dummy), and
the camera is discretized.  Buttons.ALL lives in elefant.data.const (not in
src) and is modelled from the spec as the explicit `vocab` parameter. -/
noncomputable def env2policy (vocab : List String) (q : CameraQuantizer)
    (acs : EnvActionT) : PolicyActionT :=
  .mk (vocab.map (fun k => ((acs.buttons.lookup k).getD 0)))
    (q.discretize acs.camera.1, q.discretize acs.camera.2)

/-- ActionTransformer.numpy_to_dict: asserts that the button vector length
equals the vocabulary size, then rebuilds the dict in vocabulary order and
undiscretizes the camera. -/
noncomputable def numpy_to_dict (vocab : List String) (q : CameraQuantizer)
    (acs : PolicyActionT) : Except PyError EnvActionT :=
  if acs.buttons.length = vocab.length then
    .ok (.mk (vocab.zip acs.buttons) (q.undiscretize acs.camera.1, q.undiscretize acs.camera.2))
  else
    .error .assertionError

/-- ActionTransformer.policy2env is numpy_to_dict. -/
noncomputable def policy2env (vocab : List String) (q : CameraQuantizer)
    (acs : PolicyActionT) : Except PyError EnvActionT :=
  numpy_to_dict vocab q acs

/-- The attribute store of an ActionTransformer object.  `__init__` only
assigns self.quantizer (the `@store_args` decorator above it is commented
out), so `human_spaces` — read by dict_to_numpy — is never set; the slot is
`Option Bool` with `none` meaning the attribute does not exist. -/
structure ActionTransformerObj where
  quantizer : CameraQuantizer
  human_spaces : Option Bool
deriving DecidableEq

/-- ActionTransformer.__init__: builds the quantizer (running the attrs
validators) and assigns it as the only attribute. -/
def ActionTransformer_init (camera_maxval camera_binsize : ℤ)
    (camera_quantization_scheme : String) (camera_mu : ℚ) :
    Except PyError ActionTransformerObj := do
  let q ← mkCameraQuantizer camera_maxval camera_binsize camera_quantization_scheme camera_mu
  pure (.mk q Option.none)

/-- ActionTransformer.dict_to_numpy: builds the buttons/camera dict, then
evaluates `if not self.human_spaces:` — an attribute access that raises
AttributeError whenever `human_spaces` was never assigned.  The non-human
branch is modelled only to the depth the reachable code needs: with attributes
as produced by __init__ it is unreachable (and in the source it would itself
fail on the undefined `self.item_embed_name_to_id`). -/
noncomputable def dict_to_numpy (vocab : List String) (tr : ActionTransformerObj)
    (acs : EnvActionT) : Except PyError PolicyActionT :=
  let act : PolicyActionT :=
    .mk (vocab.map (fun k => ((acs.buttons.lookup k).getD 0)))
      (tr.quantizer.discretize acs.camera.1, tr.quantizer.discretize acs.camera.2)
  match tr.human_spaces with
  | Option.none => .error (.attributeError "human_spaces")
  | some hs => if hs = false then .error (.attributeError "item_embed_name_to_id") else .ok act

/- ------------------------------------------------------------------ -/
/- batch_recursive_objects -/

/-- The universe of Python values that batch_recursive_objects may encounter:
dicts, lists, named tuples (a tuple with `_fields`; carries its type name),
plain tuples, None, numpy arrays and torch tensors (shape plus flat data), and
an unrecognised leaf such as a plain string. -/
inductive PyObj where
  | dict : List (String × PyObj) → PyObj
  | list : List PyObj → PyObj
  | namedtuple : String → List (String × PyObj) → PyObj
  | tuple : List PyObj → PyObj
  | none : PyObj
  | ndarray : List ℕ → List ℚ → PyObj
  | tensor : List ℕ → List ℚ → PyObj
  | str : String → PyObj

/-- Python `type(x).__name__` as interpolated into the Unsupported type
message. -/
def typeName : PyObj → String
  | .dict _ => "dict"
  | .list _ => "list"
  | .namedtuple t _ => t
  | .tuple _ => "tuple"
  | .none => "NoneType"
  | .ndarray _ _ => "numpy.ndarray"
  | .tensor _ _ => "torch.Tensor"
  | .str _ => "str"

/-- Python subscript `d[k]` with a string key: dict lookup (KeyError when the
key is missing), TypeError on the other shapes. -/
def getKey (k : String) : PyObj → Except PyError PyObj
  | .dict fs =>
      match fs.lookup k with
      | some v => .ok v
      | Option.none => .error (.keyError k)
  | _ => .error .typeError

/-- Python subscript `l[i]` with an integer index: lists, tuples and named
tuples index positionally (IndexError when out of range), TypeError on the
other shapes. -/
def getIdx (i : ℕ) : PyObj → Except PyError PyObj
  | .list xs =>
      match xs[i]? with
      | some v => .ok v
      | Option.none => .error .indexError
  | .tuple xs =>
      match xs[i]? with
      | some v => .ok v
      | Option.none => .error .indexError
  | .namedtuple _ fs =>
      match fs[i]? with
      | some p => .ok p.2
      | Option.none => .error .indexError
  | _ => .error .typeError

/-- Python `getattr(l, field)` for a named-tuple field (AttributeError when
absent or when the value is not a named tuple). -/
def getField (f : String) : PyObj → Except PyError PyObj
  | .namedtuple _ fs =>
      match fs.lookup f with
      | some v => .ok v
      | Option.none => .error (.attributeError f)
  | _ => .error (.attributeError f)

/-- Python `e.shape`: defined for arrays and tensors, AttributeError
otherwise. -/
def shapeOf : PyObj → Except PyError (List ℕ)
  | .ndarray s _ => .ok s
  | .tensor s _ => .ok s
  | _ => .error (.attributeError "shape")

/-- Effectful map over a list in the Except monad, evaluating left to right
and propagating the first error — the evaluation order of a Python list
comprehension. -/
def exceptMapM {α β : Type} (f : α → Except PyError β) : List α → Except PyError (List β)
  | [] => pure []
  | a :: as => do
      let b ← f a
      let bs ← exceptMapM f as
      pure (b :: bs)

/-- The `check_shape` assertion of batch_recursive_objects: evaluate
`[e.shape == first.shape for e in ls]` and assert all comparisons hold
(note it compares full shapes, batch axis included). -/
def checkShapes (first : PyObj) (rest : List PyObj) (check_shape : Bool) :
    Except PyError Unit :=
  if check_shape then do
    let s0 ← shapeOf first
    let shapes ← exceptMapM shapeOf rest
    if shapes.all (fun s => s == s0) then pure () else throw .assertionError
  else pure ()

/-- View a value as a numpy array (shape, flat data) for np.concatenate;
anything else makes the concatenation fail. -/
def asNdarray : PyObj → Except PyError (List ℕ × List ℚ)
  | .ndarray s d => .ok (s, d)
  | _ => .error .valueError

/-- View a value as a torch tensor for th.cat; torch rejects anything else
with a TypeError. -/
def asTensor : PyObj → Except PyError (List ℕ × List ℚ)
  | .tensor s d => .ok (s, d)
  | _ => .error .typeError

/-- Concatenation compatibility along axis 0: every shape is non-empty and all
non-batch dimensions agree. -/
def concatOk (tailDims : List ℕ) (arrs : List (List ℕ × List ℚ)) : Bool :=
  arrs.all (fun a =>
    match a.1 with
    | [] => false
    | _ :: t => t == tailDims)

/-- np.concatenate(ls, axis=0): all elements must be arrays of rank at least
one agreeing on the non-batch dimensions; batch sizes add and the flat data is
concatenated. -/
def npConcatenate (ls : List PyObj) : Except PyError PyObj := do
  let arrs ← exceptMapM asNdarray ls
  match arrs with
  | [] => throw .valueError
  | (s, _) :: _ =>
      match s with
      | [] => throw .valueError
      | _ :: tailDims =>
          if concatOk tailDims arrs then
            pure (.ndarray ((arrs.map (fun a => a.1.headD 0)).sum :: tailDims)
              (arrs.map Prod.snd).flatten)
          else throw .valueError

/-- th.cat(ls, dim=0), mirroring npConcatenate for tensors. -/
def thCat (ls : List PyObj) : Except PyError PyObj := do
  let arrs ← exceptMapM asTensor ls
  match arrs with
  | [] => throw .valueError
  | (s, _) :: _ =>
      match s with
      | [] => throw .valueError
      | _ :: tailDims =>
          if concatOk tailDims arrs then
            pure (.tensor ((arrs.map (fun a => a.1.headD 0)).sum :: tailDims)
              (arrs.map Prod.snd).flatten)
          else throw .valueError

mutual

/-- The body of batch_recursive_objects once the first element has been
extracted: dispatch on the runtime type of `first`, recursing with the
corresponding pieces of the remaining records.  Note that the recursive calls
in the source pass no check_shape argument, so the flag reverts to its default
False below the top level.  The `th` name used for the tensor branch is
modelled from the spec as torch (the import lives in the constants module,
which is not in src). -/
def batchGo (first : PyObj) (rest : List PyObj) (check_shape : Bool) :
    Except PyError PyObj :=
  match first with
  | .dict fields => do
      let out ← batchFields fields rest
      pure (.dict out)
  | .list items => do
      let out ← batchItems items 0 rest
      pure (.list out)
  | .namedtuple ty fields => do
      let out ← batchNamedFields fields rest
      pure (.namedtuple ty out)
  | .tuple items => do
      let out ← batchItems items 0 rest
      pure (.tuple out)
  | .none => pure .none
  | .ndarray s d => do
      checkShapes (.ndarray s d) rest check_shape
      npConcatenate (.ndarray s d :: rest)
  | .tensor s d => do
      checkShapes (.tensor s d) rest check_shape
      thCat (.tensor s d :: rest)
  | .str v => do
      checkShapes (.str v) rest check_shape
      throw (.unsupportedType (typeName (.str v)))

/-- The dict branch: for each key of the first record (in order), collect
`d[k]` from every other record and batch the values. -/
def batchFields (fields : List (String × PyObj)) (rest : List PyObj) :
    Except PyError (List (String × PyObj)) :=
  match fields with
  | [] => pure []
  | (k, v) :: fs => do
      let vs ← exceptMapM (getKey k) rest
      let b ← batchGo v vs false
      let out ← batchFields fs rest
      pure ((k, b) :: out)

/-- The list/tuple branch: for each position i of the first record, collect
`l[i]` from every other record and batch the values. -/
def batchItems (items : List PyObj) (i : ℕ) (rest : List PyObj) :
    Except PyError (List PyObj) :=
  match items with
  | [] => pure []
  | x :: xs => do
      let vs ← exceptMapM (getIdx i) rest
      let b ← batchGo x vs false
      let out ← batchItems xs (i + 1) rest
      pure (b :: out)

/-- The named-tuple branch: for each field of the first record, collect
`getattr(l, field)` from every other record and batch the values. -/
def batchNamedFields (fields : List (String × PyObj)) (rest : List PyObj) :
    Except PyError (List (String × PyObj)) :=
  match fields with
  | [] => pure []
  | (f, v) :: fs => do
      let vs ← exceptMapM (getField f) rest
      let b ← batchGo v vs false
      let out ← batchNamedFields fs rest
      pure ((f, b) :: out)

end

/-- batch_recursive_objects(ls, check_shape): `first = ls[0]` raises
IndexError on an empty list, otherwise dispatch on the first element. -/
def batch_recursive_objects (ls : List PyObj) (check_shape : Bool) :
    Except PyError PyObj :=
  match ls with
  | [] => .error .indexError
  | first :: rest => batchGo first rest check_shape

/-- Distinctness of the keys of a dict / the fields of a named tuple (Python
guarantees this for genuine dicts and namedtuples). -/
def distinctKeys : List (String × PyObj) → Bool
  | [] => true
  | (k, _) :: fs => !((fs.map Prod.fst).contains k) && distinctKeys fs

mutual

/-- Structural identity of two batch records, per the spec's data model:
same keys, nesting and arity at every level, identical leaf kinds, and leaves
that agree on every non-batch dimension (with a batch axis present). -/
def sameStructure : PyObj → PyObj → Bool
  | .dict fs, .dict gs => distinctKeys fs && sameFields fs gs
  | .list xs, .list ys => sameItems xs ys
  | .namedtuple t fs, .namedtuple u gs => t == u && distinctKeys fs && sameFields fs gs
  | .tuple xs, .tuple ys => sameItems xs ys
  | .none, .none => true
  | .ndarray s _, .ndarray t _ => !s.isEmpty && !t.isEmpty && s.tail == t.tail
  | .tensor s _, .tensor t _ => !s.isEmpty && !t.isEmpty && s.tail == t.tail
  | .str _, .str _ => true
  | _, _ => false

/-- Pointwise structural identity of dict fields (same keys in order). -/
def sameFields : List (String × PyObj) → List (String × PyObj) → Bool
  | [], [] => true
  | (k, v) :: fs, (k2, v2) :: gs => k == k2 && sameStructure v v2 && sameFields fs gs
  | _, _ => false

/-- Pointwise structural identity of list/tuple elements (same length). -/
def sameItems : List PyObj → List PyObj → Bool
  | [], [] => true
  | x :: xs, y :: ys => sameStructure x y && sameItems xs ys
  | _, _ => false

end

mutual

/-- The batch of two structurally identical records: the claimed shape of
batch_recursive_objects output, with non-leaf structure preserved and
corresponding leaves concatenated along the leading axis (batch sizes add).
On structurally incompatible inputs it returns junk (its first argument). -/
def merge2 : PyObj → PyObj → PyObj
  | .dict fs, .dict gs => .dict (mergeFields fs gs)
  | .list xs, .list ys => .list (mergeItems xs ys)
  | .namedtuple t fs, .namedtuple _ gs => .namedtuple t (mergeFields fs gs)
  | .tuple xs, .tuple ys => .tuple (mergeItems xs ys)
  | .ndarray s d, .ndarray t e => .ndarray ((s.headD 0 + t.headD 0) :: s.tail) (d ++ e)
  | .tensor s d, .tensor t e => .tensor ((s.headD 0 + t.headD 0) :: s.tail) (d ++ e)
  | x, _ => x

/-- merge2 on dict fields, pointwise. -/
def mergeFields : List (String × PyObj) → List (String × PyObj) → List (String × PyObj)
  | (k, v) :: fs, (_, v2) :: gs => (k, merge2 v v2) :: mergeFields fs gs
  | _, _ => []

/-- merge2 on list/tuple elements, pointwise. -/
def mergeItems : List PyObj → List PyObj → List PyObj
  | x :: xs, y :: ys => merge2 x y :: mergeItems xs ys
  | _, _ => []

end

mutual

/-- The first leaf (in traversal order) whose type batch_recursive_objects
does not support, returning its type name, or none when every leaf is a
numeric array, tensor or None. -/
def firstBad : PyObj → Option String
  | .dict fs => firstBadFields fs
  | .list xs => firstBadItems xs
  | .namedtuple _ fs => firstBadFields fs
  | .tuple xs => firstBadItems xs
  | .none => Option.none
  | .ndarray _ _ => Option.none
  | .tensor _ _ => Option.none
  | .str _ => some "str"

/-- firstBad over dict fields, left to right. -/
def firstBadFields : List (String × PyObj) → Option String
  | [] => Option.none
  | (_, v) :: fs => (firstBad v).orElse (fun _ => firstBadFields fs)

/-- firstBad over list/tuple elements, left to right. -/
def firstBadItems : List PyObj → Option String
  | [] => Option.none
  | x :: xs => (firstBad x).orElse (fun _ => firstBadItems xs)

end

mutual

/-- The leading (batch) dimensions of the numeric leaves of a record, in
traversal order. -/
def leafBatchSizes : PyObj → List ℕ
  | .dict fs => leafBatchSizesFields fs
  | .list xs => leafBatchSizesItems xs
  | .namedtuple _ fs => leafBatchSizesFields fs
  | .tuple xs => leafBatchSizesItems xs
  | .none => []
  | .ndarray s _ => [s.headD 0]
  | .tensor s _ => [s.headD 0]
  | .str _ => []

/-- leafBatchSizes over dict fields. -/
def leafBatchSizesFields : List (String × PyObj) → List ℕ
  | [] => []
  | (_, v) :: fs => leafBatchSizes v ++ leafBatchSizesFields fs

/-- leafBatchSizes over list/tuple elements. -/
def leafBatchSizesItems : List PyObj → List ℕ
  | [] => []
  | x :: xs => leafBatchSizes x ++ leafBatchSizesItems xs

end

/- ------------------------------------------------------------------ -/
/- Theorems -/

theorem np_round_sub_le (x : ℝ) : |(np_round x : ℝ) - x| ≤ 1 / 2 := by
  have hfl : ((⌊x⌋ : ℤ) : ℝ) ≤ x := Int.floor_le x
  have hfu : x < (⌊x⌋ : ℝ) + 1 := Int.lt_floor_add_one x
  unfold np_round
  split_ifs with h1 h2 h3
  · rw [abs_sub_comm, abs_of_nonneg (by linarith)]
    linarith
  · push_cast
    rw [abs_of_nonneg (by linarith)]
    linarith
  · have hx : x - ⌊x⌋ = 1 / 2 := le_antisymm (not_lt.mp h2) (not_lt.mp h1)
    rw [abs_sub_comm, abs_of_nonneg (by linarith)]
    linarith
  · have hx : x - ⌊x⌋ = 1 / 2 := le_antisymm (not_lt.mp h2) (not_lt.mp h1)
    push_cast
    rw [abs_of_nonneg (by linarith)]
    linarith

theorem np_round_intCast (n : ℤ) : np_round ((n : ℤ) : ℝ) = n := by
  unfold np_round
  rw [Int.floor_intCast]
  simp

theorem np_round_eq_succ_of (n : ℤ) (x : ℝ) (h1 : (n : ℝ) + 1 / 2 < x)
    (h2 : x < (n : ℝ) + 1) : np_round x = n + 1 := by
  have hfl : ⌊x⌋ = n := Int.floor_eq_iff.mpr ⟨by linarith, by linarith⟩
  unfold np_round
  rw [hfl]
  rw [if_neg (by linarith), if_pos (by linarith)]

theorem np_round_add_half_odd (n : ℤ) (h : n % 2 = 1) :
    np_round ((n : ℝ) + 1 / 2) = n + 1 := by
  have hfl : ⌊(n : ℝ) + 1 / 2⌋ = n := Int.floor_eq_iff.mpr ⟨by linarith, by linarith⟩
  unfold np_round
  rw [hfl]
  rw [if_neg (by norm_num), if_neg (by norm_num), if_neg (by omega)]

theorem discretize_not_mu_law (q : CameraQuantizer) (h : q.quantization_scheme ≠ "mu_law")
    (x : ℝ) :
    q.discretize x =
      np_round ((npClip x (-((q.camera_maxval : ℤ) : ℝ)) ((q.camera_maxval : ℤ) : ℝ) +
        ((q.camera_maxval : ℤ) : ℝ)) / ((q.camera_binsize : ℤ) : ℝ)) := by
  simp only [CameraQuantizer.discretize, if_neg h]

theorem undiscretize_not_mu_law (q : CameraQuantizer) (h : q.quantization_scheme ≠ "mu_law")
    (b : ℤ) :
    q.undiscretize b = (b : ℝ) * ((q.camera_binsize : ℤ) : ℝ) - ((q.camera_maxval : ℤ) : ℝ) := by
  simp only [CameraQuantizer.undiscretize, if_neg h]

/-- C1 (amended): for every configuration with maxval > 0, binsize > 0 evenly
dividing the usable range and mu > 0, under the linear scheme, for every delta
x in [-maxval, maxval] the round trip undiscretize(discretize(x)) differs from
x by at most binsize (in fact by at most binsize / 2). -/
theorem roundtrip_linear_binsize_bound (M B : ℤ) (mu : ℚ) (hM : 0 < M) (hB : 0 < B)
    (hdvd : B ∣ 2 * M) (hmu : 0 < mu) (x : ℝ) (hx1 : -((M : ℤ) : ℝ) ≤ x)
    (hx2 : x ≤ ((M : ℤ) : ℝ)) :
    |(CameraQuantizer.mk M B "linear" mu).undiscretize
        ((CameraQuantizer.mk M B "linear" mu).discretize x) - x| ≤ ((B : ℤ) : ℝ) := by
  have hs : (CameraQuantizer.mk M B "linear" mu).quantization_scheme ≠ "mu_law" := by
    simp [CameraQuantizer.mk]
  rw [undiscretize_not_mu_law _ hs, discretize_not_mu_law _ hs]
  have hBR : (0 : ℝ) < (B : ℝ) := by exact_mod_cast hB
  have hclip : npClip x (-((M : ℤ) : ℝ)) ((M : ℤ) : ℝ) = x := by
    rw [npClip, max_eq_right hx1, min_eq_right hx2]
  rw [hclip]
  set y : ℝ := (x + (M : ℝ)) / (B : ℝ) with hy
  have hxy : x = y * (B : ℝ) - (M : ℝ) := by
    rw [hy]
    field_simp
  have hr : |(np_round y : ℝ) - y| ≤ 1 / 2 := np_round_sub_le y
  have key : (np_round y : ℝ) * (B : ℝ) - (M : ℝ) - x = ((np_round y : ℝ) - y) * (B : ℝ) := by
    rw [hxy]
    ring
  rw [key, abs_mul, abs_of_pos hBR]
  nlinarith [abs_nonneg ((np_round y : ℝ) - y)]

/-- C1 witness: the amended theorem applied at maxval 10, binsize 2, mu 5,
x = 0. -/
theorem roundtrip_linear_binsize_bound_w :
    |(CameraQuantizer.mk 10 2 "linear" 5).undiscretize
        ((CameraQuantizer.mk 10 2 "linear" 5).discretize 0) - 0| ≤ ((2 : ℤ) : ℝ) :=
  roundtrip_linear_binsize_bound 10 2 5 (by norm_num) (by norm_num) (by norm_num)
    (by norm_num) 0 (by norm_num) (by norm_num)

/-- C1 counterexample: with maxval = 10, binsize = 2, mu = 100 (all inside the
claimed domain: maxval > 0, binsize > 0 dividing the usable range, mu > 0) and
the mu_law scheme, the delta x = 6.3 lies in [-maxval, maxval] but the round
trip lands at 10, an error of 3.7 > binsize. -/
theorem roundtrip_mu_law_counterexample :
    (0 < (10 : ℤ) ∧ 0 < (2 : ℤ) ∧ (2 : ℤ) ∣ 2 * 10 ∧ 0 < (100 : ℚ) ∧
      -(((10 : ℤ) : ℝ)) ≤ (63 / 10 : ℝ) ∧ (63 / 10 : ℝ) ≤ ((10 : ℤ) : ℝ)) ∧
    ¬ |(CameraQuantizer.mk 10 2 "mu_law" 100).undiscretize
        ((CameraQuantizer.mk 10 2 "mu_law" 100).discretize (63 / 10)) - 63 / 10| ≤
      ((2 : ℤ) : ℝ) := by
  constructor
  · refine ⟨by norm_num, by norm_num, by norm_num, by norm_num, by norm_num, by norm_num⟩
  have hL101 : (0 : ℝ) < Real.log 101 := Real.log_pos (by norm_num)
  have hlt : Real.log 64 < Real.log 101 := Real.log_lt_log (by norm_num) (by norm_num)
  have h9 : (9 : ℝ) * Real.log 101 < 10 * Real.log 64 := by
    have hpow : ((101 : ℝ) ^ (9 : ℕ)) < ((64 : ℝ) ^ (10 : ℕ)) := by norm_num
    have := Real.log_lt_log (by positivity) hpow
    rw [Real.log_pow, Real.log_pow] at this
    push_cast at this
    linarith
  have hd : (CameraQuantizer.mk 10 2 "mu_law" 100).discretize (63 / 10) = 10 := by
    simp only [CameraQuantizer.discretize]
    norm_num [npClip, npSign]
    rw [show |(63 / 100 : ℝ)| = 63 / 100 from abs_of_pos (by norm_num)]
    rw [show (1 : ℝ) + 100 * (63 / 100) = 64 by norm_num]
    have hql : 9 / 10 < Real.log 64 / Real.log 101 := by
      rw [lt_div_iff hL101]
      linarith
    have hqu : Real.log 64 / Real.log 101 < 1 := by
      rw [div_lt_one hL101]
      exact hlt
    rw [show (10 : ℤ) = 9 + 1 by norm_num]
    apply np_round_eq_succ_of
    · push_cast
      linarith
    · push_cast
      linarith
  have hu : (CameraQuantizer.mk 10 2 "mu_law" 100).undiscretize 10 = 10 := by
    simp only [CameraQuantizer.undiscretize]
    norm_num [npSign]
  rw [hd, hu]
  rw [show (10 : ℝ) - 63 / 10 = 37 / 10 by norm_num]
  rw [abs_of_pos (by norm_num : (0 : ℝ) < 37 / 10)]
  push_cast
  norm_num

/-- Helper: full evaluation of the decoder on the spec's concrete example
event (forward key held, dx = 90, dy = 0, mouse button 0, sensitivity 0.15):
the int64 camera array truncates 90 * 0.15 = 13.5 to 13. -/
theorem decoderEvalEx : annotation_action_to_env_action kbMapEx [] CAMERA_SCALER vocabEx evEx
    = (EnvActionD.mk [("forward", 1), ("attack", 1), ("use", 0)] (0, 13), false) := by
  norm_num [annotation_action_to_env_action, decodeKeys, decodeCamY, decodeCamX, decodeClamp,
    decodeMouseButtons, kbMapEx, vocabEx, CAMERA_SCALER, evEx, noopButtons, setButton,
    float_to_int64]
  all_goals decide

/-- C2 counterexample: on the example event the decoder does not return the
camera value (0, 13.5): the env action's camera array is an int64 array, so
the yaw component stored is 13, not 13.5. -/
theorem annotation_example_camera_counterexample :
    ¬ ((((annotation_action_to_env_action kbMapEx [] CAMERA_SCALER vocabEx evEx).1.camera.1 : ℚ) = 0) ∧
       (((annotation_action_to_env_action kbMapEx [] CAMERA_SCALER vocabEx evEx).1.camera.2 : ℚ) = 27 / 2)) := by
  rw [decoderEvalEx]
  norm_num

/-- C2 (amended): on the example event the decoder returns forward = 1,
attack = 1, use = 0 with is_null_action = false, and camera = (0, 13) — the
int64 camera array truncates 13.5 to 13; discretizing that camera value with
maxval 10, binsize 2 under the linear scheme clamps 13 to 10 and yields the
bin indices (5, 10), as the claim states. -/
theorem annotation_example_amended :
    (annotation_action_to_env_action kbMapEx [] CAMERA_SCALER vocabEx evEx).1.buttons
        = [("forward", 1), ("attack", 1), ("use", 0)] ∧
    (annotation_action_to_env_action kbMapEx [] CAMERA_SCALER vocabEx evEx).1.camera = (0, 13) ∧
    (annotation_action_to_env_action kbMapEx [] CAMERA_SCALER vocabEx evEx).2 = false ∧
    npClip ((13 : ℤ) : ℝ) (-((10 : ℤ) : ℝ)) ((10 : ℤ) : ℝ) = ((10 : ℤ) : ℝ) ∧
    (CameraQuantizer.mk 10 2 "linear" 5).discretize ((0 : ℤ) : ℝ) = 5 ∧
    (CameraQuantizer.mk 10 2 "linear" 5).discretize ((13 : ℤ) : ℝ) = 10 := by
  have hs : (CameraQuantizer.mk 10 2 "linear" 5).quantization_scheme ≠ "mu_law" := by
    simp [CameraQuantizer.mk]
  refine ⟨by rw [decoderEvalEx], by rw [decoderEvalEx], by rw [decoderEvalEx], ?_, ?_, ?_⟩
  · norm_num [npClip]
  · rw [discretize_not_mu_law _ hs]
    norm_num [npClip]
    rw [show (5 : ℝ) = ((5 : ℤ) : ℝ) by norm_num, np_round_intCast]
  · rw [discretize_not_mu_law _ hs]
    norm_num [npClip]
    rw [show (10 : ℝ) = ((10 : ℤ) : ℝ) by norm_num, np_round_intCast]

/-- C3 counterexample: an event with no keys, zero mouse deltas and the single
held mouse button 1 is an event containing a non-zero signal (a held mouse
button), yet the decoder leaves is_null_action true: only button codes 0 and 2
are inspected. -/
theorem null_action_mouse_button_counterexample :
    ¬ ((annotation_action_to_env_action kbMapEx [] CAMERA_SCALER vocabEx
        (.mk (.mk []) (.mk 0 0 [1]))).2 = false) := by
  norm_num [annotation_action_to_env_action, decodeKeys, decodeCamY, decodeCamX, decodeClamp,
    decodeMouseButtons, noopButtons]

/-- C3 (amended): the decoder's is_null_action flag is correct for the signals
the code inspects: the empty event yields true; a single mapped key, a
non-zero mouse delta, or a held mouse button with code 0 or 2 yields false
(other button codes leave the flag unchanged); and within one call the flag
starts true and, once cleared by any stage, is never reset back to true by any
later stage. -/
theorem null_action_flag_amended (kbMap : List (String × String)) (ignored : List String)
    (scaler : ℚ) (vocab : List String) :
    ((annotation_action_to_env_action kbMap ignored scaler vocab
        (.mk (.mk []) (.mk 0 0 []))).2 = true) ∧
    (∀ k name, kbMap.lookup k = some name →
      (annotation_action_to_env_action kbMap ignored scaler vocab
        (.mk (.mk [k]) (.mk 0 0 []))).2 = false) ∧
    (∀ dx : ℚ, dx ≠ 0 →
      (annotation_action_to_env_action kbMap ignored scaler vocab
        (.mk (.mk []) (.mk dx 0 []))).2 = false) ∧
    (∀ dy : ℚ, dy ≠ 0 →
      (annotation_action_to_env_action kbMap ignored scaler vocab
        (.mk (.mk []) (.mk 0 dy []))).2 = false) ∧
    (∀ btns : List ℤ, 0 ∈ btns →
      (annotation_action_to_env_action kbMap ignored scaler vocab
        (.mk (.mk []) (.mk 0 0 btns))).2 = false) ∧
    (∀ btns : List ℤ, 2 ∈ btns →
      (annotation_action_to_env_action kbMap ignored scaler vocab
        (.mk (.mk []) (.mk 0 0 btns))).2 = false) ∧
    ((DecodeState.mk (EnvActionD.mk (noopButtons vocab) (0, 0)) true).is_null_action = true) ∧
    (∀ s keys, s.is_null_action = false →
      (decodeKeys kbMap ignored keys s).is_null_action = false) ∧
    (∀ s dy, s.is_null_action = false → (decodeCamY scaler dy s).is_null_action = false) ∧
    (∀ s dx, s.is_null_action = false → (decodeCamX scaler dx s).is_null_action = false) ∧
    (∀ s, (decodeClamp s).is_null_action = s.is_null_action) ∧
    (∀ s btns, s.is_null_action = false →
      (decodeMouseButtons btns s).is_null_action = false) := by
  have hkeys : ∀ s keys, s.is_null_action = false →
      (decodeKeys kbMap ignored keys s).is_null_action = false := by
    intro s keys
    induction keys generalizing s with
    | nil => intro h; exact h
    | cons k ks ih =>
        intro h
        rw [decodeKeys] at *
        simp only [List.foldl_cons]
        cases hlk : kbMap.lookup k with
        | none => exact ih s h
        | some name => exact ih _ rfl
  refine ⟨?_, ?_, ?_, ?_, ?_, ?_, ?_, hkeys, ?_, ?_, ?_, ?_⟩
  · simp [annotation_action_to_env_action, decodeKeys, decodeCamY, decodeCamX, decodeClamp,
      decodeMouseButtons]
  · intro k name h
    simp [annotation_action_to_env_action, decodeKeys, decodeCamY, decodeCamX, decodeClamp,
      decodeMouseButtons, h]
  · intro dx h
    simp [annotation_action_to_env_action, decodeKeys, decodeCamY, decodeCamX, decodeClamp,
      decodeMouseButtons, h]
  · intro dy h
    simp [annotation_action_to_env_action, decodeKeys, decodeCamY, decodeCamX, decodeClamp,
      decodeMouseButtons, h]
  · intro btns h
    have hne : btns ≠ [] := by rintro rfl; exact absurd h (by simp)
    simp only [annotation_action_to_env_action, decodeCamY, decodeCamX, decodeClamp,
      decodeMouseButtons, decodeKeys, List.foldl_nil]
    simp [hne, h]
    split <;> rfl
  · intro btns h
    have hne : btns ≠ [] := by rintro rfl; exact absurd h (by simp)
    simp only [annotation_action_to_env_action, decodeCamY, decodeCamX, decodeClamp,
      decodeMouseButtons, decodeKeys, List.foldl_nil]
    simp [hne, h]
  · rfl
  · intro s dy h
    rw [decodeCamY]
    split <;> simp [h]
  · intro s dx h
    rw [decodeCamX]
    split <;> simp [h]
  · intro s; rfl
  · intro s btns h
    rw [decodeMouseButtons]
    split
    · exact h
    · split <;> split <;> simp [h]

/-- C3 witness: the amended theorem instantiated at the example tables: the
empty event is null, the forward key clears the flag, and mouse button 0
clears the flag. -/
theorem null_action_flag_amended_w :
    ((annotation_action_to_env_action kbMapEx [] CAMERA_SCALER vocabEx
        (.mk (.mk []) (.mk 0 0 []))).2 = true) ∧
    ((annotation_action_to_env_action kbMapEx [] CAMERA_SCALER vocabEx
        (.mk (.mk ["key.keyboard.w"]) (.mk 0 0 []))).2 = false) ∧
    ((annotation_action_to_env_action kbMapEx [] CAMERA_SCALER vocabEx
        (.mk (.mk []) (.mk 0 0 [0]))).2 = false) :=
  ⟨(null_action_flag_amended kbMapEx [] CAMERA_SCALER vocabEx).1,
   (null_action_flag_amended kbMapEx [] CAMERA_SCALER vocabEx).2.1 "key.keyboard.w" "forward"
     (by decide),
   (null_action_flag_amended kbMapEx [] CAMERA_SCALER vocabEx).2.2.2.2.1 [0] (by decide)⟩

theorem lookup_mem_of_eq_some {l : List (String × ℤ)} {k : String} {v : ℤ}
    (h : l.lookup k = some v) : (k, v) ∈ l := by
  induction l with
  | nil => simp [List.lookup] at h
  | cons p l ih =>
      obtain ⟨p1, p2⟩ := p
      rw [List.lookup] at h
      by_cases hk : k = p1
      · rw [show (k == p1) = true from beq_iff_eq.mpr hk] at h
        simp only [Option.some.injEq] at h
        subst hk
        subst h
        exact List.mem_cons_self _ _
      · rw [show (k == p1) = false from beq_eq_false_iff_ne.mpr hk] at h
        exact List.mem_cons_of_mem _ (ih h)

theorem zip_map_lookup (vocab : List String) (f : String → ℤ) (k : String)
    (hk : k ∈ vocab) : (vocab.zip (vocab.map f)).lookup k = some (f k) := by
  induction vocab with
  | nil => cases hk
  | cons a l ih =>
      rw [List.map, List.zip, List.zipWith, List.lookup]
      by_cases ha : k = a
      · rw [show (k == a) = true from beq_iff_eq.mpr ha, ha]
      · rw [show (k == a) = false from beq_eq_false_iff_ne.mpr ha]
        exact ih (by cases hk with
          | head => exact absurd rfl ha
          | tail _ h => exact h)

/-- C4 counterexample: with the vocabulary [forward, attack, use] and the
default linear quantizer (maxval 10, binsize 2), the env action with all
buttons present and camera (1, 0) does not round trip: discretize maps 1 to
bin 6 and undiscretize maps bin 6 back to 2, so the camera comes back as
(2, 0). -/
theorem vocab_roundtrip_counterexample :
    policy2env vocabEx (CameraQuantizer.mk 10 2 "linear" 5)
      (env2policy vocabEx (CameraQuantizer.mk 10 2 "linear" 5)
        (EnvActionT.mk [("forward", 1), ("attack", 0), ("use", 0)] (1, 0)))
      ≠ .ok (EnvActionT.mk [("forward", 1), ("attack", 0), ("use", 0)] (1, 0)) := by
  have hs : (CameraQuantizer.mk 10 2 "linear" 5).quantization_scheme ≠ "mu_law" := by
    simp [CameraQuantizer.mk]
  have hd1 : (CameraQuantizer.mk 10 2 "linear" 5).discretize (1 : ℝ) = 6 := by
    rw [discretize_not_mu_law _ hs]
    norm_num [npClip]
    rw [show (11 : ℝ) / 2 = ((5 : ℤ) : ℝ) + 1 / 2 by norm_num]
    rw [np_round_add_half_odd 5 (by norm_num)]
    norm_num
  have hu6 : (CameraQuantizer.mk 10 2 "linear" 5).undiscretize 6 = 2 := by
    rw [undiscretize_not_mu_law _ hs]
    norm_num
  intro h
  rw [env2policy] at h
  rw [policy2env, numpy_to_dict] at h
  simp only [vocabEx, List.map, List.length, List.zip, List.zipWith, if_pos rfl, if_true] at h
  rw [hd1, hu6] at h
  simp only [Except.ok.injEq, EnvActionT.mk.injEq, Prod.mk.injEq] at h
  have : (2 : ℝ) = 1 := h.2.1
  norm_num at this

/-- C4 (amended): converting an EnvAction built purely from vocabulary entries
to policy array form and back succeeds and preserves the value of every button
key; the camera however comes back as undiscretize(discretize(camera)), the
nearest quantization-grid value, which differs from the original camera in
general (quantization is lossy), so the round trip is the identity only on
button entries. -/
theorem vocab_roundtrip_amended (vocab : List String) (q : CameraQuantizer)
    (a : EnvActionT) (hkeys : ∀ p ∈ a.buttons, p.1 ∈ vocab) :
    ∃ r, policy2env vocab q (env2policy vocab q a) = .ok r ∧
      (∀ k v, a.buttons.lookup k = some v → r.buttons.lookup k = some v) ∧
      r.camera = (q.undiscretize (q.discretize a.camera.1),
        q.undiscretize (q.discretize a.camera.2)) := by
  refine ⟨EnvActionT.mk
      (vocab.zip (vocab.map (fun k => ((a.buttons.lookup k).getD 0))))
      (q.undiscretize (q.discretize a.camera.1), q.undiscretize (q.discretize a.camera.2)),
    ?_, ?_, rfl⟩
  · rw [env2policy, policy2env, numpy_to_dict]
    rw [List.length_map, if_pos rfl]
  · intro k v h
    have hk : k ∈ vocab := hkeys (k, v) (lookup_mem_of_eq_some h)
    rw [zip_map_lookup vocab _ k hk, h]
    rfl

/-- C4 witness: the amended theorem applied to the example vocabulary, the
default linear quantizer and a concrete env action. -/
theorem vocab_roundtrip_amended_w :
    ∃ r, policy2env vocabEx (CameraQuantizer.mk 10 2 "linear" 5)
        (env2policy vocabEx (CameraQuantizer.mk 10 2 "linear" 5)
          (EnvActionT.mk [("forward", 1)] (0, 0))) = .ok r ∧
      (∀ k v, (EnvActionT.mk [("forward", 1)] ((0 : ℝ), (0 : ℝ))).buttons.lookup k = some v →
        r.buttons.lookup k = some v) ∧
      r.camera = ((CameraQuantizer.mk 10 2 "linear" 5).undiscretize
          ((CameraQuantizer.mk 10 2 "linear" 5).discretize 0),
        (CameraQuantizer.mk 10 2 "linear" 5).undiscretize
          ((CameraQuantizer.mk 10 2 "linear" 5).discretize 0)) :=
  vocab_roundtrip_amended vocabEx (CameraQuantizer.mk 10 2 "linear" 5)
    (EnvActionT.mk [("forward", 1)] (0, 0)) (by intro p hp; simp at hp; subst hp; decide)

/-- C6 counterexample: mu = -1 is not strictly positive, yet constructing a
CameraQuantizer with it succeeds: attrs only validates quantization_scheme. -/
theorem quantizer_mu_validation_counterexample :
    ((-1 : ℚ) ≤ 0) ∧
    mkCameraQuantizer 10 2 "linear" (-1) = .ok (CameraQuantizer.mk 10 2 "linear" (-1)) :=
  ⟨by norm_num, by rw [mkCameraQuantizer, if_pos (Or.inl rfl)]⟩

/-- C6 (amended): constructing a CameraQuantizer fails with an error if and
only if the scheme is not one of linear or mu_law; mu, binsize and maxval are
not validated (in particular constructions with mu <= 0 succeed). -/
theorem quantizer_validation_amended (M B : ℤ) (s : String) (mu : ℚ) :
    (∃ e, mkCameraQuantizer M B s mu = .error e) ↔ ¬(s = "linear" ∨ s = "mu_law") := by
  rw [mkCameraQuantizer]
  by_cases h : s = "linear" ∨ s = "mu_law"
  · rw [if_pos h]
    simp [h]
  · rw [if_neg h]
    simp [h]

/-- C6 witness: the amended theorem applied at a bogus scheme (construction
fails) — the forward implication instantiated concretely. -/
theorem quantizer_validation_amended_w :
    ∃ e, mkCameraQuantizer 10 2 "bogus" 5 = .error e :=
  (quantizer_validation_amended 10 2 "bogus" 5).mpr (by decide)

/-- C9: the scalar env-to-policy conversion dict_to_numpy never succeeds: for
every action transformer produced by __init__ (which stores only the
quantizer; `@store_args` is commented out, so `human_spaces` is never
assigned) and every input, it raises AttributeError at
`if not self.human_spaces:` — so it cannot agree with the batched variant. -/
theorem dict_to_numpy_attribute_error (vocab : List String) (M B : ℤ) (s : String)
    (mu : ℚ) (tr : ActionTransformerObj)
    (h : ActionTransformer_init M B s mu = .ok tr) (acs : EnvActionT) :
    dict_to_numpy vocab tr acs = .error (.attributeError "human_spaces") := by
  rw [ActionTransformer_init] at h
  cases hm : mkCameraQuantizer M B s mu with
  | error e =>
      rw [hm] at h
      simp [Bind.bind, Except.bind] at h
  | ok q =>
      rw [hm] at h
      simp only [Bind.bind, Except.bind, Pure.pure, Except.pure, Except.ok.injEq] at h
      rw [dict_to_numpy, ← h]

/-- C9 witness: the theorem applied to the transformer built with the default
arguments (maxval 10, binsize 2, linear, mu 5) and a concrete null action. -/
theorem dict_to_numpy_attribute_error_w :
    dict_to_numpy vocabEx (ActionTransformerObj.mk (CameraQuantizer.mk 10 2 "linear" 5)
        Option.none) (EnvActionT.mk [] (0, 0)) = .error (.attributeError "human_spaces") :=
  dict_to_numpy_attribute_error vocabEx 10 2 "linear" 5
    (ActionTransformerObj.mk (CameraQuantizer.mk 10 2 "linear" 5) Option.none)
    (by rw [ActionTransformer_init, mkCameraQuantizer, if_pos (Or.inl rfl)]; rfl)
    (EnvActionT.mk [] (0, 0))

theorem PyObj.sizeOf_pos (a : PyObj) : 0 < sizeOf a := by
  cases a <;> simp_arith

theorem sizeOf_snd_lt_of_mem_fields {p : String × PyObj} {fs : List (String × PyObj)}
    (h : p ∈ fs) : sizeOf p.2 < sizeOf fs := by
  have h1 := List.sizeOf_lt_of_mem h
  obtain ⟨p1, p2⟩ := p
  simp at h1 ⊢
  omega

theorem sizeOf_lt_of_mem_items {x : PyObj} {xs : List PyObj} (h : x ∈ xs) :
    sizeOf x < sizeOf xs :=
  List.sizeOf_lt_of_mem h

theorem except_ok_bind {α β : Type} (a : α) (f : α → Except PyError β) :
    (Except.ok a >>= f) = f a := rfl

theorem except_error_bind {α β : Type} (e : PyError) (f : α → Except PyError β) :
    ((Except.error e : Except PyError α) >>= f) = Except.error e := rfl

theorem sameFields_forall2 : ∀ fs gs : List (String × PyObj),
    sameFields fs gs = true ↔
      List.Forall₂ (fun p q => p.1 = q.1 ∧ sameStructure p.2 q.2 = true) fs gs := by
  intro fs
  induction fs with
  | nil =>
      intro gs
      cases gs with
      | nil => simp [sameFields]
      | cons q gs => simp [sameFields]
  | cons p fs ih =>
      intro gs
      cases gs with
      | nil =>
          obtain ⟨p1, p2⟩ := p
          simp [sameFields]
      | cons q gs =>
          obtain ⟨p1, p2⟩ := p
          obtain ⟨q1, q2⟩ := q
          rw [sameFields]
          constructor
          · intro h
            have h1 := (Bool.and_eq_true _ _).mp h
            have h2 := (Bool.and_eq_true _ _).mp h1.1
            exact List.Forall₂.cons ⟨beq_iff_eq.mp h2.1, h2.2⟩ ((ih gs).mp h1.2)
          · intro h
            cases h with
            | cons hpq hrest =>
                rw [(ih gs).mpr hrest, beq_iff_eq.mpr hpq.1, hpq.2]
                rfl

theorem sameItems_forall2 : ∀ xs ys : List PyObj,
    sameItems xs ys = true ↔
      List.Forall₂ (fun x y => sameStructure x y = true) xs ys := by
  intro xs
  induction xs with
  | nil =>
      intro ys
      cases ys with
      | nil => simp [sameItems]
      | cons y ys => simp [sameItems]
  | cons x xs ih =>
      intro ys
      cases ys with
      | nil => simp [sameItems]
      | cons y ys =>
          rw [sameItems]
          constructor
          · intro h
            have h1 := (Bool.and_eq_true _ _).mp h
            exact List.Forall₂.cons h1.1 ((ih ys).mp h1.2)
          · intro h
            cases h with
            | cons hxy hrest =>
                rw [hxy, (ih ys).mpr hrest]
                rfl

theorem distinctKeys_eq_of_keys_eq : ∀ fs gs : List (String × PyObj),
    fs.map Prod.fst = gs.map Prod.fst → distinctKeys fs = distinctKeys gs := by
  intro fs
  induction fs with
  | nil =>
      intro gs h
      cases gs with
      | nil => rfl
      | cons q gs => simp at h
  | cons p fs ih =>
      intro gs h
      cases gs with
      | nil => simp at h
      | cons q gs =>
          obtain ⟨p1, p2⟩ := p
          obtain ⟨q1, q2⟩ := q
          simp only [List.map, List.cons.injEq] at h
          rw [distinctKeys, distinctKeys, ih gs h.2, h.1, h.2]

/-- The single induction behind all structural facts about merge2: merging a
structurally identical pair keeps the first record's structure (so the merge
is interchangeable with the first record inside sameStructure), keeps its set
of supported/unsupported leaves, and adds batch sizes leafwise. -/
theorem merge2_spec : ∀ (n : ℕ) (a b : PyObj), sizeOf a ≤ n → sameStructure a b = true →
    sameStructure a (merge2 a b) = true ∧
    (∀ x, sameStructure (merge2 a b) x = sameStructure a x) ∧
    firstBad (merge2 a b) = firstBad a ∧
    leafBatchSizes (merge2 a b) =
      List.zipWith (· + ·) (leafBatchSizes a) (leafBatchSizes b) ∧
    (leafBatchSizes a).length = (leafBatchSizes b).length := by
  intro n
  induction n with
  | zero =>
      intro a b ha
      exact absurd (PyObj.sizeOf_pos a) (by omega)
  | succ n ih =>
    intro a b ha hss
    have fieldsAux : ∀ fs gs : List (String × PyObj),
        List.Forall₂ (fun p q => p.1 = q.1 ∧ sameStructure p.2 q.2 = true) fs gs →
        (∀ p ∈ fs, sizeOf p.2 ≤ n) →
        sameFields fs (mergeFields fs gs) = true ∧
        (∀ hs, sameFields (mergeFields fs gs) hs = sameFields fs hs) ∧
        firstBadFields (mergeFields fs gs) = firstBadFields fs ∧
        leafBatchSizesFields (mergeFields fs gs) =
          List.zipWith (· + ·) (leafBatchSizesFields fs) (leafBatchSizesFields gs) ∧
        (leafBatchSizesFields fs).length = (leafBatchSizesFields gs).length ∧
        (mergeFields fs gs).map Prod.fst = fs.map Prod.fst := by
      intro fs gs hf
      induction hf with
      | nil =>
          intro _
          refine ⟨rfl, ?_, rfl, rfl, rfl, rfl⟩
          intro hs
          cases hs <;> rfl
      | cons hpq hrest ihf =>
          intro hsz
          rename_i p q fs' gs'
          obtain ⟨p1, p2⟩ := p
          obtain ⟨q1, q2⟩ := q
          obtain ⟨hk, hv⟩ := hpq
          simp only at hk hv
          subst hk
          have hrec := ih p2 q2 (by
            have := hsz (p1, p2) (List.mem_cons_self _ _)
            simpa using this) hv
          have ihf2 := ihf (fun p hp => hsz p (List.mem_cons_of_mem _ hp))
          rw [mergeFields]
          refine ⟨?_, ?_, ?_, ?_, ?_, ?_⟩
          · rw [sameFields]
            rw [beq_self_eq_true, hrec.1, ihf2.1]
            rfl
          · intro hs
            cases hs with
            | nil => rfl
            | cons r hs' =>
                obtain ⟨r1, r2⟩ := r
                rw [sameFields, sameFields, hrec.2.1, ihf2.2.1]
          · rw [firstBadFields, firstBadFields, hrec.2.2.1, ihf2.2.2.1]
          · rw [leafBatchSizesFields, leafBatchSizesFields, leafBatchSizesFields,
              hrec.2.2.2.1, ihf2.2.2.2.1]
            exact (List.zipWith_append _ _ _ _ _ hrec.2.2.2.2).symm
          · simp only [leafBatchSizesFields, List.length_append]
            rw [hrec.2.2.2.2, ihf2.2.2.2.2.1]
          · simp only [List.map, mergeFields, List.cons.injEq]
            exact ⟨by trivial, ihf2.2.2.2.2.2⟩
    have itemsAux : ∀ xs ys : List PyObj,
        List.Forall₂ (fun x y => sameStructure x y = true) xs ys →
        (∀ x ∈ xs, sizeOf x ≤ n) →
        sameItems xs (mergeItems xs ys) = true ∧
        (∀ zs, sameItems (mergeItems xs ys) zs = sameItems xs zs) ∧
        firstBadItems (mergeItems xs ys) = firstBadItems xs ∧
        leafBatchSizesItems (mergeItems xs ys) =
          List.zipWith (· + ·) (leafBatchSizesItems xs) (leafBatchSizesItems ys) ∧
        (leafBatchSizesItems xs).length = (leafBatchSizesItems ys).length := by
      intro xs ys hf
      induction hf with
      | nil =>
          intro _
          refine ⟨rfl, ?_, rfl, rfl, rfl⟩
          intro zs
          cases zs <;> rfl
      | cons hxy hrest ihf =>
          intro hsz
          rename_i x y xs' ys'
          have hrec := ih x y (by
            have := hsz x (List.mem_cons_self _ _)
            omega) hxy
          have ihf2 := ihf (fun z hz => hsz z (List.mem_cons_of_mem _ hz))
          rw [mergeItems]
          refine ⟨?_, ?_, ?_, ?_, ?_⟩
          · rw [sameItems, hrec.1, ihf2.1]
            rfl
          · intro zs
            cases zs with
            | nil => rfl
            | cons z zs' => rw [sameItems, sameItems, hrec.2.1, ihf2.2.1]
          · rw [firstBadItems, firstBadItems, hrec.2.2.1, ihf2.2.2.1]
          · rw [leafBatchSizesItems, leafBatchSizesItems, leafBatchSizesItems,
              hrec.2.2.2.1, ihf2.2.2.2.1]
            exact (List.zipWith_append _ _ _ _ _ hrec.2.2.2.2).symm
          · simp only [leafBatchSizesItems, List.length_append]
            rw [hrec.2.2.2.2, ihf2.2.2.2.2]
    cases a with
    | dict fs =>
        cases b with
        | dict gs =>
            rw [sameStructure] at hss
            have h1 := (Bool.and_eq_true _ _).mp hss
            have hf := (sameFields_forall2 _ _).mp h1.2
            have hsz : ∀ p ∈ fs, sizeOf p.2 ≤ n := by
              intro p hp
              have h2 := sizeOf_snd_lt_of_mem_fields hp
              have h3 : sizeOf (PyObj.dict fs) = 1 + sizeOf fs := by simp
              omega
            obtain ⟨i1, i2, i3, i4, i5, i6⟩ := fieldsAux fs gs hf hsz
            rw [merge2]
            refine ⟨?_, ?_, ?_, ?_, ?_⟩
            · rw [sameStructure, h1.1, i1]
              rfl
            · intro x
              cases x with
              | dict hs =>
                  rw [sameStructure, sameStructure,
                    distinctKeys_eq_of_keys_eq _ _ i6, i2]
              | list ys => rfl
              | namedtuple u hs => rfl
              | tuple ys => rfl
              | none => rfl
              | ndarray s d => rfl
              | tensor s d => rfl
              | str v => rfl
            · rw [firstBad, firstBad, i3]
            · rw [leafBatchSizes, leafBatchSizes, leafBatchSizes, i4]
            · rw [leafBatchSizes, leafBatchSizes, i5]
        | list ys => simp [sameStructure] at hss
        | namedtuple u gs => simp [sameStructure] at hss
        | tuple ys => simp [sameStructure] at hss
        | none => simp [sameStructure] at hss
        | ndarray s d => simp [sameStructure] at hss
        | tensor s d => simp [sameStructure] at hss
        | str v => simp [sameStructure] at hss
    | list xs =>
        cases b with
        | list ys =>
            rw [sameStructure] at hss
            have hf := (sameItems_forall2 _ _).mp hss
            have hsz : ∀ x ∈ xs, sizeOf x ≤ n := by
              intro x hx
              have h2 := sizeOf_lt_of_mem_items hx
              have h3 : sizeOf (PyObj.list xs) = 1 + sizeOf xs := by simp
              omega
            obtain ⟨i1, i2, i3, i4, i5⟩ := itemsAux xs ys hf hsz
            rw [merge2]
            refine ⟨?_, ?_, ?_, ?_, ?_⟩
            · rw [sameStructure, i1]
            · intro x
              cases x with
              | list zs => rw [sameStructure, sameStructure, i2]
              | dict hs => rfl
              | namedtuple u hs => rfl
              | tuple ys => rfl
              | none => rfl
              | ndarray s d => rfl
              | tensor s d => rfl
              | str v => rfl
            · rw [firstBad, firstBad, i3]
            · rw [leafBatchSizes, leafBatchSizes, leafBatchSizes, i4]
            · rw [leafBatchSizes, leafBatchSizes, i5]
        | dict gs => simp [sameStructure] at hss
        | namedtuple u gs => simp [sameStructure] at hss
        | tuple ys => simp [sameStructure] at hss
        | none => simp [sameStructure] at hss
        | ndarray s d => simp [sameStructure] at hss
        | tensor s d => simp [sameStructure] at hss
        | str v => simp [sameStructure] at hss
    | namedtuple ty fs =>
        cases b with
        | namedtuple u gs =>
            rw [sameStructure] at hss
            have h1 := (Bool.and_eq_true _ _).mp hss
            have h2 := (Bool.and_eq_true _ _).mp h1.1
            have hf := (sameFields_forall2 _ _).mp h1.2
            have hsz : ∀ p ∈ fs, sizeOf p.2 ≤ n := by
              intro p hp
              have h3 := sizeOf_snd_lt_of_mem_fields hp
              have h4 : sizeOf (PyObj.namedtuple ty fs) = 1 + sizeOf ty + sizeOf fs := by simp
              omega
            obtain ⟨i1, i2, i3, i4, i5, i6⟩ := fieldsAux fs gs hf hsz
            rw [merge2]
            refine ⟨?_, ?_, ?_, ?_, ?_⟩
            · rw [sameStructure, h2.2, i1]
              simp
            · intro x
              cases x with
              | namedtuple w hs =>
                  rw [sameStructure, sameStructure,
                    distinctKeys_eq_of_keys_eq _ _ i6, i2]
              | dict hs => rfl
              | list ys => rfl
              | tuple ys => rfl
              | none => rfl
              | ndarray s d => rfl
              | tensor s d => rfl
              | str v => rfl
            · rw [firstBad, firstBad, i3]
            · rw [leafBatchSizes, leafBatchSizes, leafBatchSizes, i4]
            · rw [leafBatchSizes, leafBatchSizes, i5]
        | dict gs => simp [sameStructure] at hss
        | list ys => simp [sameStructure] at hss
        | tuple ys => simp [sameStructure] at hss
        | none => simp [sameStructure] at hss
        | ndarray s d => simp [sameStructure] at hss
        | tensor s d => simp [sameStructure] at hss
        | str v => simp [sameStructure] at hss
    | tuple xs =>
        cases b with
        | tuple ys =>
            rw [sameStructure] at hss
            have hf := (sameItems_forall2 _ _).mp hss
            have hsz : ∀ x ∈ xs, sizeOf x ≤ n := by
              intro x hx
              have h2 := sizeOf_lt_of_mem_items hx
              have h3 : sizeOf (PyObj.tuple xs) = 1 + sizeOf xs := by simp
              omega
            obtain ⟨i1, i2, i3, i4, i5⟩ := itemsAux xs ys hf hsz
            rw [merge2]
            refine ⟨?_, ?_, ?_, ?_, ?_⟩
            · rw [sameStructure, i1]
            · intro x
              cases x with
              | tuple zs => rw [sameStructure, sameStructure, i2]
              | dict hs => rfl
              | list zs => rfl
              | namedtuple u hs => rfl
              | none => rfl
              | ndarray s d => rfl
              | tensor s d => rfl
              | str v => rfl
            · rw [firstBad, firstBad, i3]
            · rw [leafBatchSizes, leafBatchSizes, leafBatchSizes, i4]
            · rw [leafBatchSizes, leafBatchSizes, i5]
        | dict gs => simp [sameStructure] at hss
        | list ys => simp [sameStructure] at hss
        | namedtuple u gs => simp [sameStructure] at hss
        | none => simp [sameStructure] at hss
        | ndarray s d => simp [sameStructure] at hss
        | tensor s d => simp [sameStructure] at hss
        | str v => simp [sameStructure] at hss
    | none =>
        cases b with
        | none =>
            exact ⟨rfl, fun x => rfl, rfl, rfl, rfl⟩
        | dict gs => simp [sameStructure] at hss
        | list ys => simp [sameStructure] at hss
        | namedtuple u gs => simp [sameStructure] at hss
        | tuple ys => simp [sameStructure] at hss
        | ndarray s d => simp [sameStructure] at hss
        | tensor s d => simp [sameStructure] at hss
        | str v => simp [sameStructure] at hss
    | ndarray s d =>
        cases b with
        | ndarray s2 d2 =>
            rw [sameStructure] at hss
            have h1 := (Bool.and_eq_true _ _).mp hss
            have h2 := (Bool.and_eq_true _ _).mp h1.1
            rw [merge2]
            refine ⟨?_, ?_, rfl, ?_, rfl⟩
            · rw [sameStructure]
              simp only [List.tail_cons]
              rw [h2.1]
              simp
            · intro x
              cases x with
              | ndarray u e =>
                  rw [sameStructure, sameStructure]
                  simp only [List.tail_cons, List.isEmpty_cons]
                  rw [h2.1]
                  rfl
              | dict hs => rfl
              | list zs => rfl
              | namedtuple w hs => rfl
              | tuple zs => rfl
              | none => rfl
              | tensor u e => rfl
              | str v => rfl
            · rw [leafBatchSizes, leafBatchSizes, leafBatchSizes]
              simp only [List.headD_cons, List.zipWith]
        | dict gs => simp [sameStructure] at hss
        | list ys => simp [sameStructure] at hss
        | namedtuple u gs => simp [sameStructure] at hss
        | tuple ys => simp [sameStructure] at hss
        | none => simp [sameStructure] at hss
        | tensor u e => simp [sameStructure] at hss
        | str v => simp [sameStructure] at hss
    | tensor s d =>
        cases b with
        | tensor s2 d2 =>
            rw [sameStructure] at hss
            have h1 := (Bool.and_eq_true _ _).mp hss
            have h2 := (Bool.and_eq_true _ _).mp h1.1
            rw [merge2]
            refine ⟨?_, ?_, rfl, ?_, rfl⟩
            · rw [sameStructure]
              simp only [List.tail_cons]
              rw [h2.1]
              simp
            · intro x
              cases x with
              | tensor u e =>
                  rw [sameStructure, sameStructure]
                  simp only [List.tail_cons, List.isEmpty_cons]
                  rw [h2.1]
                  rfl
              | dict hs => rfl
              | list zs => rfl
              | namedtuple w hs => rfl
              | tuple zs => rfl
              | none => rfl
              | ndarray u e => rfl
              | str v => rfl
            · rw [leafBatchSizes, leafBatchSizes, leafBatchSizes]
              simp only [List.headD_cons, List.zipWith]
        | dict gs => simp [sameStructure] at hss
        | list ys => simp [sameStructure] at hss
        | namedtuple u gs => simp [sameStructure] at hss
        | tuple ys => simp [sameStructure] at hss
        | none => simp [sameStructure] at hss
        | ndarray u e => simp [sameStructure] at hss
        | str v => simp [sameStructure] at hss
    | str v =>
        cases b with
        | str w =>
            exact ⟨rfl, fun x => rfl, rfl, rfl, rfl⟩
        | dict gs => simp [sameStructure] at hss
        | list ys => simp [sameStructure] at hss
        | namedtuple u gs => simp [sameStructure] at hss
        | tuple ys => simp [sameStructure] at hss
        | none => simp [sameStructure] at hss
        | ndarray u e => simp [sameStructure] at hss
        | tensor u e => simp [sameStructure] at hss

theorem forall2_self_mem {α : Type} {R : α → α → Prop} : ∀ {l : List α},
    List.Forall₂ R l l → ∀ a ∈ l, R a a := by
  intro l h
  induction l with
  | nil => intro a ha; cases ha
  | cons x xs ih =>
      cases h with
      | cons hx hxs =>
          intro a ha
          cases ha with
          | head => exact hx
          | tail _ ha => exact ih hxs a ha

theorem npConcatenate_singleton (s : List ℕ) (d : List ℚ) (hs : s.isEmpty = false) :
    npConcatenate [.ndarray s d] = .ok (.ndarray s d) := by
  cases s with
  | nil => simp at hs
  | cons h tl =>
      simp [npConcatenate, asNdarray, concatOk, exceptMapM,
        Bind.bind, Except.bind, Pure.pure, Except.pure]

theorem thCat_singleton (s : List ℕ) (d : List ℚ) (hs : s.isEmpty = false) :
    thCat [.tensor s d] = .ok (.tensor s d) := by
  cases s with
  | nil => simp at hs
  | cons h tl =>
      simp [thCat, asTensor, concatOk, exceptMapM,
        Bind.bind, Except.bind, Pure.pure, Except.pure]

/-- Batching a single record (with no further records) reproduces it when all
its leaves are supported, and raises the Unsupported type error naming the
first unsupported leaf otherwise. -/
theorem batchGo_nil_spec : ∀ (n : ℕ) (a : PyObj), sizeOf a ≤ n →
    sameStructure a a = true →
    (firstBad a = Option.none → batchGo a [] false = Except.ok a) ∧
    (∀ t, firstBad a = some t →
      batchGo a [] false = Except.error (PyError.unsupportedType t)) := by
  intro n
  induction n with
  | zero =>
      intro a ha
      exact absurd (PyObj.sizeOf_pos a) (by omega)
  | succ n ih =>
    intro a ha hss
    have fieldsNil : ∀ fs : List (String × PyObj),
        (∀ p ∈ fs, sameStructure p.2 p.2 = true) →
        (∀ p ∈ fs, sizeOf p.2 ≤ n) →
        (firstBadFields fs = Option.none → batchFields fs [] = Except.ok fs) ∧
        (∀ t, firstBadFields fs = some t →
          batchFields fs [] = Except.error (PyError.unsupportedType t)) := by
      intro fs
      induction fs with
      | nil =>
          intro _ _
          exact ⟨fun _ => by rw [batchFields]; rfl,
            fun t ht => by simp [firstBadFields] at ht⟩
      | cons p fs ihf =>
          intro hself hsz
          obtain ⟨k, v⟩ := p
          have hv := ih v (by
              have := hsz (k, v) (List.mem_cons_self _ _)
              simpa using this)
            (hself (k, v) (List.mem_cons_self _ _))
          have ihf2 := ihf (fun p hp => hself p (List.mem_cons_of_mem _ hp))
            (fun p hp => hsz p (List.mem_cons_of_mem _ hp))
          cases hb : firstBad v with
          | some t =>
              constructor
              · intro hnone
                rw [firstBadFields, hb] at hnone
                simp [Option.orElse] at hnone
              · intro t2 ht2
                rw [firstBadFields, hb] at ht2
                simp only [Option.orElse] at ht2
                have ht : t = t2 := by
                  have h4 : some t = some t2 := ht2
                  exact Option.some.inj h4
                subst ht
                rw [batchFields, exceptMapM]
                simp only [pure_bind]
                rw [hv.2 t hb, except_error_bind]
          | none =>
              have hfb : firstBadFields ((k, v) :: fs) = firstBadFields fs := by
                rw [firstBadFields, hb]
                rfl
              have hok : batchGo v [] false = Except.ok v := hv.1 hb
              constructor
              · intro hnone
                rw [hfb] at hnone
                rw [batchFields, exceptMapM]
                simp only [pure_bind]
                rw [hok, except_ok_bind, ihf2.1 hnone, except_ok_bind]
                rfl
              · intro t2 ht2
                rw [hfb] at ht2
                rw [batchFields, exceptMapM]
                simp only [pure_bind]
                rw [hok, except_ok_bind, ihf2.2 t2 ht2, except_error_bind]
    have itemsNil : ∀ (xs : List PyObj),
        (∀ x ∈ xs, sameStructure x x = true) →
        (∀ x ∈ xs, sizeOf x ≤ n) →
        ∀ i : ℕ,
        (firstBadItems xs = Option.none → batchItems xs i [] = Except.ok xs) ∧
        (∀ t, firstBadItems xs = some t →
          batchItems xs i [] = Except.error (PyError.unsupportedType t)) := by
      intro xs
      induction xs with
      | nil =>
          intro _ _ i
          exact ⟨fun _ => by rw [batchItems]; rfl,
            fun t ht => by simp [firstBadItems] at ht⟩
      | cons x xs ihx =>
          intro hself hsz i
          have hv := ih x (by
              have := hsz x (List.mem_cons_self _ _)
              omega)
            (hself x (List.mem_cons_self _ _))
          have ihx2 := ihx (fun z hz => hself z (List.mem_cons_of_mem _ hz))
            (fun z hz => hsz z (List.mem_cons_of_mem _ hz)) (i + 1)
          cases hb : firstBad x with
          | some t =>
              constructor
              · intro hnone
                rw [firstBadItems, hb] at hnone
                simp [Option.orElse] at hnone
              · intro t2 ht2
                rw [firstBadItems, hb] at ht2
                simp only [Option.orElse] at ht2
                have ht : t = t2 := by
                  have h4 : some t = some t2 := ht2
                  exact Option.some.inj h4
                subst ht
                rw [batchItems, exceptMapM]
                simp only [pure_bind]
                rw [hv.2 t hb, except_error_bind]
          | none =>
              have hfb : firstBadItems (x :: xs) = firstBadItems xs := by
                rw [firstBadItems, hb]
                rfl
              have hok : batchGo x [] false = Except.ok x := hv.1 hb
              constructor
              · intro hnone
                rw [hfb] at hnone
                rw [batchItems, exceptMapM]
                simp only [pure_bind]
                rw [hok, except_ok_bind, ihx2.1 hnone, except_ok_bind]
                rfl
              · intro t2 ht2
                rw [hfb] at ht2
                rw [batchItems, exceptMapM]
                simp only [pure_bind]
                rw [hok, except_ok_bind, ihx2.2 t2 ht2, except_error_bind]
    have namedNil : ∀ fs : List (String × PyObj),
        (∀ p ∈ fs, sameStructure p.2 p.2 = true) →
        (∀ p ∈ fs, sizeOf p.2 ≤ n) →
        (firstBadFields fs = Option.none → batchNamedFields fs [] = Except.ok fs) ∧
        (∀ t, firstBadFields fs = some t →
          batchNamedFields fs [] = Except.error (PyError.unsupportedType t)) := by
      intro fs
      induction fs with
      | nil =>
          intro _ _
          exact ⟨fun _ => by rw [batchNamedFields]; rfl,
            fun t ht => by simp [firstBadFields] at ht⟩
      | cons p fs ihf =>
          intro hself hsz
          obtain ⟨k, v⟩ := p
          have hv := ih v (by
              have := hsz (k, v) (List.mem_cons_self _ _)
              simpa using this)
            (hself (k, v) (List.mem_cons_self _ _))
          have ihf2 := ihf (fun p hp => hself p (List.mem_cons_of_mem _ hp))
            (fun p hp => hsz p (List.mem_cons_of_mem _ hp))
          cases hb : firstBad v with
          | some t =>
              constructor
              · intro hnone
                rw [firstBadFields, hb] at hnone
                simp [Option.orElse] at hnone
              · intro t2 ht2
                rw [firstBadFields, hb] at ht2
                simp only [Option.orElse] at ht2
                have ht : t = t2 := by
                  have h4 : some t = some t2 := ht2
                  exact Option.some.inj h4
                subst ht
                rw [batchNamedFields, exceptMapM]
                simp only [pure_bind]
                rw [hv.2 t hb, except_error_bind]
          | none =>
              have hfb : firstBadFields ((k, v) :: fs) = firstBadFields fs := by
                rw [firstBadFields, hb]
                rfl
              have hok : batchGo v [] false = Except.ok v := hv.1 hb
              constructor
              · intro hnone
                rw [hfb] at hnone
                rw [batchNamedFields, exceptMapM]
                simp only [pure_bind]
                rw [hok, except_ok_bind, ihf2.1 hnone, except_ok_bind]
                rfl
              · intro t2 ht2
                rw [hfb] at ht2
                rw [batchNamedFields, exceptMapM]
                simp only [pure_bind]
                rw [hok, except_ok_bind, ihf2.2 t2 ht2, except_error_bind]
    cases a with
    | dict fs =>
        rw [sameStructure] at hss
        have h1 := (Bool.and_eq_true _ _).mp hss
        have hself := forall2_self_mem ((sameFields_forall2 _ _).mp h1.2)
        have hsz : ∀ p ∈ fs, sizeOf p.2 ≤ n := by
          intro p hp
          have h2 := sizeOf_snd_lt_of_mem_fields hp
          have h3 : sizeOf (PyObj.dict fs) = 1 + sizeOf fs := by simp
          omega
        have hf := fieldsNil fs (fun p hp => (hself p hp).2) hsz
        constructor
        · intro hnone
          rw [firstBad] at hnone
          rw [batchGo, hf.1 hnone, except_ok_bind]
          rfl
        · intro t ht
          rw [firstBad] at ht
          rw [batchGo, hf.2 t ht, except_error_bind]
    | list xs =>
        rw [sameStructure] at hss
        have hself := forall2_self_mem ((sameItems_forall2 _ _).mp hss)
        have hsz : ∀ x ∈ xs, sizeOf x ≤ n := by
          intro x hx
          have h2 := sizeOf_lt_of_mem_items hx
          have h3 : sizeOf (PyObj.list xs) = 1 + sizeOf xs := by simp
          omega
        have hf := itemsNil xs hself hsz 0
        constructor
        · intro hnone
          rw [firstBad] at hnone
          rw [batchGo, hf.1 hnone, except_ok_bind]
          rfl
        · intro t ht
          rw [firstBad] at ht
          rw [batchGo, hf.2 t ht, except_error_bind]
    | namedtuple ty fs =>
        rw [sameStructure] at hss
        have h1 := (Bool.and_eq_true _ _).mp hss
        have hself := forall2_self_mem ((sameFields_forall2 _ _).mp h1.2)
        have hsz : ∀ p ∈ fs, sizeOf p.2 ≤ n := by
          intro p hp
          have h2 := sizeOf_snd_lt_of_mem_fields hp
          have h3 : sizeOf (PyObj.namedtuple ty fs) = 1 + sizeOf ty + sizeOf fs := by simp
          omega
        have hf := namedNil fs (fun p hp => (hself p hp).2) hsz
        constructor
        · intro hnone
          rw [firstBad] at hnone
          rw [batchGo, hf.1 hnone, except_ok_bind]
          rfl
        · intro t ht
          rw [firstBad] at ht
          rw [batchGo, hf.2 t ht, except_error_bind]
    | tuple xs =>
        rw [sameStructure] at hss
        have hself := forall2_self_mem ((sameItems_forall2 _ _).mp hss)
        have hsz : ∀ x ∈ xs, sizeOf x ≤ n := by
          intro x hx
          have h2 := sizeOf_lt_of_mem_items hx
          have h3 : sizeOf (PyObj.tuple xs) = 1 + sizeOf xs := by simp
          omega
        have hf := itemsNil xs hself hsz 0
        constructor
        · intro hnone
          rw [firstBad] at hnone
          rw [batchGo, hf.1 hnone, except_ok_bind]
          rfl
        · intro t ht
          rw [firstBad] at ht
          rw [batchGo, hf.2 t ht, except_error_bind]
    | none =>
        constructor
        · intro _
          rw [batchGo]
          rfl
        · intro t ht
          simp [firstBad] at ht
    | ndarray s d =>
        rw [sameStructure] at hss
        have h1 := (Bool.and_eq_true _ _).mp hss
        have h2 := (Bool.and_eq_true _ _).mp h1.1
        constructor
        · intro _
          rw [batchGo]
          simp only [checkShapes, Bool.false_eq_true, if_false]
          simp only [pure_bind]
          exact npConcatenate_singleton s d (by
            cases hh : s.isEmpty
            · rfl
            · rw [hh] at h2
              simp at h2)
        · intro t ht
          simp [firstBad] at ht
    | tensor s d =>
        rw [sameStructure] at hss
        have h1 := (Bool.and_eq_true _ _).mp hss
        have h2 := (Bool.and_eq_true _ _).mp h1.1
        constructor
        · intro _
          rw [batchGo]
          simp only [checkShapes, Bool.false_eq_true, if_false]
          simp only [pure_bind]
          exact thCat_singleton s d (by
            cases hh : s.isEmpty
            · rfl
            · rw [hh] at h2
              simp at h2)
        · intro t ht
          simp [firstBad] at ht
    | str v =>
        constructor
        · intro hnone
          simp [firstBad] at hnone
        · intro t ht
          rw [firstBad] at ht
          have ht2 : t = "str" := (Option.some.inj ht).symm
          subst ht2
          rw [batchGo]
          simp only [checkShapes, Bool.false_eq_true, if_false, pure_bind]
          rfl

theorem not_contains_forall_ne (l : List String) (a : String)
    (h : (!l.contains a) = true) : ∀ x ∈ l, x ≠ a := by
  intro x hx
  simp only [Bool.not_eq_true'] at h
  simp only [List.contains, List.elem_eq_mem, decide_eq_false_iff_not] at h
  intro hc
  exact h (hc ▸ hx)

theorem forall2_imp_mem {α β : Type} {R S : α → β → Prop} : ∀ {l1 : List α} {l2 : List β},
    List.Forall₂ R l1 l2 → (∀ a ∈ l1, ∀ b, R a b → S a b) → List.Forall₂ S l1 l2 := by
  intro l1 l2 h
  induction h with
  | nil => intro _; exact .nil
  | cons hab hrest ih =>
      intro himp
      exact .cons (himp _ (List.mem_cons_self _ _) _ hab)
        (ih fun a ha b hr => himp a (List.mem_cons_of_mem _ ha) b hr)

theorem lookup_cons_ne {β : Type} (k k2 : String) (w : β) (gs : List (String × β))
    (h : k ≠ k2) : List.lookup k ((k2, w) :: gs) = List.lookup k gs := by
  rw [List.lookup, show (k == k2) = false from beq_eq_false_iff_ne.mpr h]

/-- A structurally identical pair of dicts with distinct keys aligns
positionally with python's key lookup: looking each first-dict key up in the
second dict returns the positionally corresponding value. -/
theorem sameFields_lookup : ∀ fs gs : List (String × PyObj),
    sameFields fs gs = true → distinctKeys fs = true →
    List.Forall₂ (fun p q => p.1 = q.1 ∧ sameStructure p.2 q.2 = true ∧
      List.lookup p.1 gs = some q.2) fs gs := by
  intro fs
  induction fs with
  | nil =>
      intro gs h _
      cases gs with
      | nil => exact .nil
      | cons q gs => simp [sameFields] at h
  | cons p fs ih =>
      intro gs h hd
      cases gs with
      | nil =>
          obtain ⟨p1, p2⟩ := p
          simp [sameFields] at h
      | cons q gs =>
          obtain ⟨p1, p2⟩ := p
          obtain ⟨q1, q2⟩ := q
          rw [sameFields] at h
          have h1 := (Bool.and_eq_true _ _).mp h
          have h2 := (Bool.and_eq_true _ _).mp h1.1
          have hk : p1 = q1 := beq_iff_eq.mp h2.1
          rw [distinctKeys] at hd
          have hd1 := (Bool.and_eq_true _ _).mp hd
          have hne : ∀ r ∈ fs, r.1 ≠ q1 := by
            intro r hr
            have := not_contains_forall_ne _ _ hd1.1 r.1 (List.mem_map_of_mem _ hr)
            rw [← hk]
            exact this
          refine List.Forall₂.cons ⟨hk, h2.2, ?_⟩ ?_
          · rw [List.lookup, show (p1 == q1) = true from h2.1]
          · exact forall2_imp_mem (ih gs h1.2 hd1.2)
              (fun r hr s hrs => ⟨hrs.1, hrs.2.1, by
                rw [lookup_cons_ne _ _ _ _ (hne r hr)]
                exact hrs.2.2⟩)

theorem npConcatenate_cons_merge (s : List ℕ) (d : List ℚ) (s2 : List ℕ) (d2 : List ℚ)
    (t : List PyObj) (hs : s.isEmpty = false) (hs2 : s2.isEmpty = false)
    (htl : s.tail = s2.tail) :
    npConcatenate (.ndarray s d :: .ndarray s2 d2 :: t) =
    npConcatenate (.ndarray ((s.headD 0 + s2.headD 0) :: s.tail) (d ++ d2) :: t) := by
  cases s with
  | nil => simp at hs
  | cons h tl =>
    cases s2 with
    | nil => simp at hs2
    | cons h2 tl2 =>
        simp only [List.tail_cons] at htl
        subst htl
        cases hmt : exceptMapM asNdarray t with
        | error e =>
            simp [npConcatenate, exceptMapM, hmt, asNdarray,
              Bind.bind, Except.bind]
        | ok ts =>
            simp [npConcatenate, exceptMapM, hmt, asNdarray, concatOk,
              List.all_cons, Nat.add_assoc, List.append_assoc,
              Bind.bind, Except.bind, Pure.pure, Except.pure]
            rw [show (tl == tl) = true from beq_self_eq_true tl]
            simp only [Bool.true_and]

theorem thCat_cons_merge (s : List ℕ) (d : List ℚ) (s2 : List ℕ) (d2 : List ℚ)
    (t : List PyObj) (hs : s.isEmpty = false) (hs2 : s2.isEmpty = false)
    (htl : s.tail = s2.tail) :
    thCat (.tensor s d :: .tensor s2 d2 :: t) =
    thCat (.tensor ((s.headD 0 + s2.headD 0) :: s.tail) (d ++ d2) :: t) := by
  cases s with
  | nil => simp at hs
  | cons h tl =>
    cases s2 with
    | nil => simp at hs2
    | cons h2 tl2 =>
        simp only [List.tail_cons] at htl
        subst htl
        cases hmt : exceptMapM asTensor t with
        | error e =>
            simp [thCat, exceptMapM, hmt, asTensor,
              Bind.bind, Except.bind]
        | ok ts =>
            simp [thCat, exceptMapM, hmt, asTensor, concatOk,
              List.all_cons, Nat.add_assoc, List.append_assoc,
              Bind.bind, Except.bind, Pure.pure, Except.pure]
            rw [show (tl == tl) = true from beq_self_eq_true tl]
            simp only [Bool.true_and]

theorem batchFields_absorb (gs : List (String × PyObj)) (t : List PyObj) :
    ∀ (fs gsub : List (String × PyObj)),
    List.Forall₂ (fun p q => p.1 = q.1 ∧ sameStructure p.2 q.2 = true ∧
      List.lookup p.1 gs = some q.2) fs gsub →
    (∀ p ∈ fs, ∀ q ts, sameStructure p.2 q = true →
      batchGo p.2 (q :: ts) false = batchGo (merge2 p.2 q) ts false) →
    batchFields fs (PyObj.dict gs :: t) = batchFields (mergeFields fs gsub) t := by
  intro fs gsub hf
  induction hf with
  | nil =>
      intro _
      show batchFields [] (PyObj.dict gs :: t) = batchFields [] t
      simp only [batchFields]
  | cons hpq hrest ihf =>
      intro hrec
      rename_i p q fs' gsub'
      obtain ⟨p1, p2⟩ := p
      obtain ⟨q1, q2⟩ := q
      obtain ⟨hk, hss, hlk⟩ := hpq
      simp only at hk hss hlk
      subst hk
      have hg : getKey p1 (PyObj.dict gs) = Except.ok q2 := by
        rw [getKey, hlk]
      rw [batchFields, exceptMapM, hg, mergeFields, batchFields]
      cases hmt : exceptMapM (getKey p1) t with
      | error e =>
          simp only [except_ok_bind, except_error_bind]
      | ok ts =>
          simp only [except_ok_bind, pure_bind]
          rw [hrec (p1, p2) (List.mem_cons_self _ _) q2 ts hss]
          apply bind_congr
          intro b
          rw [ihf fun r hr q3 ts2 h3 => hrec r (List.mem_cons_of_mem _ hr) q3 ts2 h3]

theorem batchNamedFields_absorb (u : String) (gs : List (String × PyObj))
    (t : List PyObj) :
    ∀ (fs gsub : List (String × PyObj)),
    List.Forall₂ (fun p q => p.1 = q.1 ∧ sameStructure p.2 q.2 = true ∧
      List.lookup p.1 gs = some q.2) fs gsub →
    (∀ p ∈ fs, ∀ q ts, sameStructure p.2 q = true →
      batchGo p.2 (q :: ts) false = batchGo (merge2 p.2 q) ts false) →
    batchNamedFields fs (PyObj.namedtuple u gs :: t) =
      batchNamedFields (mergeFields fs gsub) t := by
  intro fs gsub hf
  induction hf with
  | nil =>
      intro _
      show batchNamedFields [] (PyObj.namedtuple u gs :: t) = batchNamedFields [] t
      simp only [batchNamedFields]
  | cons hpq hrest ihf =>
      intro hrec
      rename_i p q fs' gsub'
      obtain ⟨p1, p2⟩ := p
      obtain ⟨q1, q2⟩ := q
      obtain ⟨hk, hss, hlk⟩ := hpq
      simp only at hk hss hlk
      subst hk
      have hg : getField p1 (PyObj.namedtuple u gs) = Except.ok q2 := by
        rw [getField, hlk]
      rw [batchNamedFields, exceptMapM, hg, mergeFields, batchNamedFields]
      cases hmt : exceptMapM (getField p1) t with
      | error e =>
          simp only [except_ok_bind, except_error_bind]
      | ok ts =>
          simp only [except_ok_bind, pure_bind]
          rw [hrec (p1, p2) (List.mem_cons_self _ _) q2 ts hss]
          apply bind_congr
          intro b
          rw [ihf fun r hr q3 ts2 h3 => hrec r (List.mem_cons_of_mem _ hr) q3 ts2 h3]

theorem batchItems_absorb (c : PyObj) (ys : List PyObj) (t : List PyObj)
    (hc : ∀ j y, ys[j]? = some y → getIdx j c = Except.ok y) :
    ∀ (xs ysub : List PyObj),
    List.Forall₂ (fun x y => sameStructure x y = true) xs ysub →
    ∀ i : ℕ,
    (∀ j, ysub[j]? = ys[i + j]?) →
    (∀ x ∈ xs, ∀ q ts, sameStructure x q = true →
      batchGo x (q :: ts) false = batchGo (merge2 x q) ts false) →
    batchItems xs i (c :: t) = batchItems (mergeItems xs ysub) i t := by
  intro xs ysub hf
  induction hf with
  | nil =>
      intro i _ _
      show batchItems [] i (c :: t) = batchItems [] i t
      simp only [batchItems]
  | cons hxy hrest ihf =>
      intro i hidx hrec
      rename_i x y xs' ysub'
      have hy : ys[i]? = some y := by
        have h5 := hidx 0
        rw [List.getElem?_cons_zero] at h5
        rw [Nat.add_zero] at h5
        exact h5.symm
      have hidx2 : ∀ j, ysub'[j]? = ys[(i + 1) + j]? := by
        intro j
        have h5 := hidx (j + 1)
        rw [List.getElem?_cons_succ] at h5
        rw [h5]
        congr 1
        omega
      have hg : getIdx i c = Except.ok y := hc i y hy
      rw [batchItems, exceptMapM, hg, mergeItems, batchItems]
      cases hmt : exceptMapM (getIdx i) t with
      | error e =>
          simp only [except_ok_bind, except_error_bind]
      | ok ts =>
          simp only [except_ok_bind, pure_bind]
          rw [hrec x (List.mem_cons_self _ _) y ts hxy]
          apply bind_congr
          intro b
          rw [ihf (i + 1) hidx2
            fun z hz q3 ts2 h3 => hrec z (List.mem_cons_of_mem _ hz) q3 ts2 h3]

/-- The absorb step: batching against one more structurally identical record
is the same as batching the two-record merge against the rest. -/
theorem batchGo_absorb : ∀ (n : ℕ) (a : PyObj), sizeOf a ≤ n →
    ∀ (b : PyObj) (t : List PyObj), sameStructure a b = true →
    batchGo a (b :: t) false = batchGo (merge2 a b) t false := by
  intro n
  induction n with
  | zero =>
      intro a ha
      exact absurd (PyObj.sizeOf_pos a) (by omega)
  | succ n ih =>
    intro a ha b t hss
    cases a with
    | dict fs =>
        cases b with
        | dict gs =>
            rw [sameStructure] at hss
            have h1 := (Bool.and_eq_true _ _).mp hss
            have hf := sameFields_lookup fs gs h1.2 h1.1
            have hsz : ∀ p ∈ fs, sizeOf p.2 ≤ n := by
              intro p hp
              have h2 := sizeOf_snd_lt_of_mem_fields hp
              have h3 : sizeOf (PyObj.dict fs) = 1 + sizeOf fs := by simp
              omega
            rw [batchGo, merge2, batchGo]
            rw [batchFields_absorb gs t fs gs hf
              fun p hp q ts h3 => ih p.2 (hsz p hp) q ts h3]
        | list ys => simp [sameStructure] at hss
        | namedtuple u gs => simp [sameStructure] at hss
        | tuple ys => simp [sameStructure] at hss
        | none => simp [sameStructure] at hss
        | ndarray s2 d2 => simp [sameStructure] at hss
        | tensor s2 d2 => simp [sameStructure] at hss
        | str w => simp [sameStructure] at hss
    | list xs =>
        cases b with
        | list ys =>
            rw [sameStructure] at hss
            have hf := (sameItems_forall2 _ _).mp hss
            have hsz : ∀ x ∈ xs, sizeOf x ≤ n := by
              intro x hx
              have h2 := sizeOf_lt_of_mem_items hx
              have h3 : sizeOf (PyObj.list xs) = 1 + sizeOf xs := by simp
              omega
            rw [batchGo, merge2, batchGo]
            rw [batchItems_absorb (PyObj.list ys) ys t
              (fun j y hy => by rw [getIdx, hy]) xs ys hf 0
              (fun j => by rw [Nat.zero_add])
              fun x hx q ts h3 => ih x (hsz x hx) q ts h3]
        | dict gs => simp [sameStructure] at hss
        | namedtuple u gs => simp [sameStructure] at hss
        | tuple ys => simp [sameStructure] at hss
        | none => simp [sameStructure] at hss
        | ndarray s2 d2 => simp [sameStructure] at hss
        | tensor s2 d2 => simp [sameStructure] at hss
        | str w => simp [sameStructure] at hss
    | namedtuple ty fs =>
        cases b with
        | namedtuple u gs =>
            rw [sameStructure] at hss
            have h1 := (Bool.and_eq_true _ _).mp hss
            have h2 := (Bool.and_eq_true _ _).mp h1.1
            have hf := sameFields_lookup fs gs h1.2 h2.2
            have hsz : ∀ p ∈ fs, sizeOf p.2 ≤ n := by
              intro p hp
              have h3 := sizeOf_snd_lt_of_mem_fields hp
              have h4 : sizeOf (PyObj.namedtuple ty fs) = 1 + sizeOf ty + sizeOf fs := by
                simp
              omega
            rw [batchGo, merge2, batchGo]
            rw [batchNamedFields_absorb u gs t fs gs hf
              fun p hp q ts h3 => ih p.2 (hsz p hp) q ts h3]
        | dict gs => simp [sameStructure] at hss
        | list ys => simp [sameStructure] at hss
        | tuple ys => simp [sameStructure] at hss
        | none => simp [sameStructure] at hss
        | ndarray s2 d2 => simp [sameStructure] at hss
        | tensor s2 d2 => simp [sameStructure] at hss
        | str w => simp [sameStructure] at hss
    | tuple xs =>
        cases b with
        | tuple ys =>
            rw [sameStructure] at hss
            have hf := (sameItems_forall2 _ _).mp hss
            have hsz : ∀ x ∈ xs, sizeOf x ≤ n := by
              intro x hx
              have h2 := sizeOf_lt_of_mem_items hx
              have h3 : sizeOf (PyObj.tuple xs) = 1 + sizeOf xs := by simp
              omega
            rw [batchGo, merge2, batchGo]
            rw [batchItems_absorb (PyObj.tuple ys) ys t
              (fun j y hy => by rw [getIdx, hy]) xs ys hf 0
              (fun j => by rw [Nat.zero_add])
              fun x hx q ts h3 => ih x (hsz x hx) q ts h3]
        | dict gs => simp [sameStructure] at hss
        | list ys => simp [sameStructure] at hss
        | namedtuple u gs => simp [sameStructure] at hss
        | none => simp [sameStructure] at hss
        | ndarray s2 d2 => simp [sameStructure] at hss
        | tensor s2 d2 => simp [sameStructure] at hss
        | str w => simp [sameStructure] at hss
    | none =>
        cases b with
        | none =>
            rw [batchGo]
            show _ = batchGo PyObj.none t false
            rw [batchGo]
        | dict gs => simp [sameStructure] at hss
        | list ys => simp [sameStructure] at hss
        | namedtuple u gs => simp [sameStructure] at hss
        | tuple ys => simp [sameStructure] at hss
        | ndarray s2 d2 => simp [sameStructure] at hss
        | tensor s2 d2 => simp [sameStructure] at hss
        | str w => simp [sameStructure] at hss
    | ndarray s d =>
        cases b with
        | ndarray s2 d2 =>
            rw [sameStructure] at hss
            have h1 := (Bool.and_eq_true _ _).mp hss
            have h2 := (Bool.and_eq_true _ _).mp h1.1
            rw [batchGo, merge2, batchGo]
            simp only [checkShapes, Bool.false_eq_true, if_false, pure_bind]
            exact npConcatenate_cons_merge s d s2 d2 t
              (by cases hh : s.isEmpty
                  · rfl
                  · rw [hh] at h2
                    simp at h2)
              (by cases hh : s2.isEmpty
                  · rfl
                  · rw [hh] at h2
                    simp at h2)
              (beq_iff_eq.mp h1.2)
        | dict gs => simp [sameStructure] at hss
        | list ys => simp [sameStructure] at hss
        | namedtuple u gs => simp [sameStructure] at hss
        | tuple ys => simp [sameStructure] at hss
        | none => simp [sameStructure] at hss
        | tensor s2 d2 => simp [sameStructure] at hss
        | str w => simp [sameStructure] at hss
    | tensor s d =>
        cases b with
        | tensor s2 d2 =>
            rw [sameStructure] at hss
            have h1 := (Bool.and_eq_true _ _).mp hss
            have h2 := (Bool.and_eq_true _ _).mp h1.1
            rw [batchGo, merge2, batchGo]
            simp only [checkShapes, Bool.false_eq_true, if_false, pure_bind]
            exact thCat_cons_merge s d s2 d2 t
              (by cases hh : s.isEmpty
                  · rfl
                  · rw [hh] at h2
                    simp at h2)
              (by cases hh : s2.isEmpty
                  · rfl
                  · rw [hh] at h2
                    simp at h2)
              (beq_iff_eq.mp h1.2)
        | dict gs => simp [sameStructure] at hss
        | list ys => simp [sameStructure] at hss
        | namedtuple u gs => simp [sameStructure] at hss
        | tuple ys => simp [sameStructure] at hss
        | none => simp [sameStructure] at hss
        | ndarray s2 d2 => simp [sameStructure] at hss
        | str w => simp [sameStructure] at hss
    | str v =>
        cases b with
        | str w =>
            rw [batchGo]
            show _ = batchGo (PyObj.str v) t false
            rw [batchGo]
            simp only [checkShapes, Bool.false_eq_true, if_false, pure_bind]
        | dict gs => simp [sameStructure] at hss
        | list ys => simp [sameStructure] at hss
        | namedtuple u gs => simp [sameStructure] at hss
        | tuple ys => simp [sameStructure] at hss
        | none => simp [sameStructure] at hss
        | ndarray s2 d2 => simp [sameStructure] at hss
        | tensor s2 d2 => simp [sameStructure] at hss

/-- Folding batchGo over the whole record list: with structurally identical
records the batch is the left fold of binary merges, or the Unsupported type
error when the first record contains an unsupported leaf. -/
theorem batchGo_fold : ∀ (rest : List PyObj) (first : PyObj),
    sameStructure first first = true →
    (∀ x ∈ rest, sameStructure first x = true) →
    (firstBad first = Option.none →
      batchGo first rest false = Except.ok (rest.foldl merge2 first)) ∧
    (∀ t, firstBad first = some t →
      batchGo first rest false = Except.error (PyError.unsupportedType t)) := by
  intro rest
  induction rest with
  | nil =>
      intro first hself _
      have hb := batchGo_nil_spec (sizeOf first) first le_rfl hself
      exact ⟨fun h => by rw [hb.1 h]; rfl, hb.2⟩
  | cons b t ih =>
      intro first hself hrest
      have hb : sameStructure first b = true := hrest b (List.mem_cons_self _ _)
      have hm := merge2_spec (sizeOf first) first b le_rfl hb
      have hself2 : sameStructure (merge2 first b) (merge2 first b) = true := by
        rw [hm.2.1]
        exact hm.1
      have hrest2 : ∀ x ∈ t, sameStructure (merge2 first b) x = true := by
        intro x hx
        rw [hm.2.1]
        exact hrest x (List.mem_cons_of_mem _ hx)
      have habs := batchGo_absorb (sizeOf first) first le_rfl b t hb
      have ih2 := ih (merge2 first b) hself2 hrest2
      constructor
      · intro hnone
        rw [habs, ih2.1 (by rw [hm.2.2.1]; exact hnone)]
        rw [List.foldl_cons]
      · intro ty hty
        rw [habs, ih2.2 ty (by rw [hm.2.2.1]; exact hty)]

/-- The fold of binary merges preserves the first record's structure and sums
leaf batch sizes pointwise. -/
theorem fold_merge_spec : ∀ (rest : List PyObj) (first : PyObj),
    sameStructure first first = true →
    (∀ x ∈ rest, sameStructure first x = true) →
    sameStructure first (rest.foldl merge2 first) = true ∧
    leafBatchSizes (rest.foldl merge2 first) =
      rest.foldl (fun acc x => List.zipWith (· + ·) acc (leafBatchSizes x))
        (leafBatchSizes first) := by
  intro rest
  induction rest with
  | nil =>
      intro first hself _
      exact ⟨hself, rfl⟩
  | cons b t ih =>
      intro first hself hrest
      have hb : sameStructure first b = true := hrest b (List.mem_cons_self _ _)
      have hm := merge2_spec (sizeOf first) first b le_rfl hb
      have hself2 : sameStructure (merge2 first b) (merge2 first b) = true := by
        rw [hm.2.1]
        exact hm.1
      have hrest2 : ∀ x ∈ t, sameStructure (merge2 first b) x = true := by
        intro x hx
        rw [hm.2.1]
        exact hrest x (List.mem_cons_of_mem _ hx)
      have ih2 := ih (merge2 first b) hself2 hrest2
      constructor
      · rw [List.foldl_cons, ← hm.2.1 (List.foldl merge2 (merge2 first b) t)]
        exact ih2.1
      · rw [List.foldl_cons, List.foldl_cons, ih2.2, hm.2.2.2.1]

/-- C5: for n >= 1 structurally identical records (same keys, nesting, tuple
arity and leaf layout at every level, with a leading batch axis present and no
unsupported leaf), batch_recursive_objects returns the record obtained by
folding the binary structural merge over the records: the non-leaf structure
is that of the inputs (sameStructure), and every leaf carries the sum of the
input batch sizes (leafBatchSizes summed pointwise), obtained by concatenating
corresponding leaves along the existing leading axis (merge2). -/
theorem batch_shape_law (first : PyObj) (rest : List PyObj)
    (hself : sameStructure first first = true)
    (hrest : ∀ x ∈ rest, sameStructure first x = true)
    (hgood : firstBad first = Option.none) :
    batch_recursive_objects (first :: rest) false =
      Except.ok (rest.foldl merge2 first) ∧
    sameStructure first (rest.foldl merge2 first) = true ∧
    leafBatchSizes (rest.foldl merge2 first) =
      rest.foldl (fun acc x => List.zipWith (· + ·) acc (leafBatchSizes x))
        (leafBatchSizes first) := by
  have h1 := (batchGo_fold rest first hself hrest).1 hgood
  have h2 := fold_merge_spec rest first hself hrest
  exact ⟨by rw [batch_recursive_objects]; exact h1, h2.1, h2.2⟩

/-- C5 witness: two records {a: (1,2)-array} batch to {a: (2,2)-array} with the
leaf batch size 1 + 1 = 2. -/
theorem batch_shape_law_w :
    sameStructure (PyObj.dict [("a", PyObj.ndarray [1, 2] [1, 2])])
        (PyObj.dict [("a", PyObj.ndarray [1, 2] [3, 4])]) = true ∧
    batch_recursive_objects
        [PyObj.dict [("a", PyObj.ndarray [1, 2] [1, 2])],
          PyObj.dict [("a", PyObj.ndarray [1, 2] [3, 4])]] false =
      Except.ok (PyObj.dict [("a", PyObj.ndarray [2, 2] [1, 2, 3, 4])]) ∧
    leafBatchSizes (PyObj.dict [("a", PyObj.ndarray [2, 2] [1, 2, 3, 4])]) = [2] := by
  refine ⟨rfl, ?_, rfl⟩
  have h := batch_shape_law (PyObj.dict [("a", PyObj.ndarray [1, 2] [1, 2])])
    [PyObj.dict [("a", PyObj.ndarray [1, 2] [3, 4])]] rfl
    (by
      intro x hx
      rw [List.mem_singleton] at hx
      rw [hx]
      rfl)
    rfl
  rw [h.1]
  rfl

/-- C7: batching structurally identical records whose first record contains a
leaf that is neither a recognized container, the null marker, a numpy array
nor a torch tensor fails with the Unsupported type error naming the offending
type, and with no other exception kind. -/
theorem batch_unsupported_leaf (first : PyObj) (rest : List PyObj) (t : String)
    (hself : sameStructure first first = true)
    (hrest : ∀ x ∈ rest, sameStructure first x = true)
    (hbad : firstBad first = some t) :
    batch_recursive_objects (first :: rest) false =
      Except.error (PyError.unsupportedType t) := by
  rw [batch_recursive_objects]
  exact (batchGo_fold rest first hself hrest).2 t hbad

/-- C7 witness: batching [{a: "x"}, {a: "y"}] fails with the Unsupported type
error naming str. -/
theorem batch_unsupported_leaf_w :
    batch_recursive_objects
        [PyObj.dict [("a", PyObj.str "x")], PyObj.dict [("a", PyObj.str "y")]] false =
      Except.error (PyError.unsupportedType "str") :=
  batch_unsupported_leaf (PyObj.dict [("a", PyObj.str "x")])
    [PyObj.dict [("a", PyObj.str "y")]] "str" rfl
    (by
      intro x hx
      rw [List.mem_singleton] at hx
      rw [hx]
      rfl)
    rfl

theorem exceptMapM_shapeOf_const (s : List ℕ) : ∀ rest : List PyObj,
    (∀ x ∈ rest, ∃ d2, x = PyObj.ndarray s d2) →
    exceptMapM shapeOf rest = Except.ok (rest.map fun _ => s) := by
  intro rest
  induction rest with
  | nil => intro _; rfl
  | cons r rs ihr =>
      intro hall
      obtain ⟨d2, hr⟩ := hall r (List.mem_cons_self _ _)
      subst hr
      rw [exceptMapM]
      rw [shapeOf, ihr fun x hx => hall x (List.mem_cons_of_mem _ hx)]
      rfl

/-- C8 counterexample: two leaf records with identical non-batch dimensions
(both (·, 1)-arrays) but different batch sizes are structurally identical
batch records, yet with shape checking enabled the batch fails with the
assertion error instead of succeeding: the assert compares full shapes, batch
axis included. -/
theorem batch_check_shape_counterexample :
    sameStructure (PyObj.ndarray [1, 1] [0]) (PyObj.ndarray [2, 1] [5, 7]) = true ∧
    batch_recursive_objects [PyObj.ndarray [1, 1] [0], PyObj.ndarray [2, 1] [5, 7]] true =
      Except.error PyError.assertionError := by
  constructor
  · rfl
  · simp [batch_recursive_objects, batchGo, checkShapes, shapeOf, exceptMapM,
      Bind.bind, Except.bind, Pure.pure, Except.pure]

/-- C8 (amended): with shape checking enabled the assert only runs when the
records themselves are leaves — the flag is not passed to the recursive calls,
so dict/list/namedtuple/tuple records batch exactly as with the flag off and
nested leaves are never checked — and at a leaf it asserts that the full
shapes (including the batch axis) of all records coincide: arrays of one
identical shape batch successfully, while arrays differing in any dimension
(batch axis included) fail with the assertion error. -/
theorem batch_check_shape_amended :
    (∀ (s : List ℕ) (d : List ℚ) (rest : List PyObj), s.isEmpty = false →
      (∀ x ∈ rest, ∃ d2, x = PyObj.ndarray s d2) →
      batch_recursive_objects (PyObj.ndarray s d :: rest) true =
        Except.ok (rest.foldl merge2 (PyObj.ndarray s d))) ∧
    (∀ (s : List ℕ) (d : List ℚ) (s2 : List ℕ) (d2 : List ℚ), s2 ≠ s →
      batch_recursive_objects [PyObj.ndarray s d, PyObj.ndarray s2 d2] true =
        Except.error PyError.assertionError) ∧
    (∀ (fs : List (String × PyObj)) (rest : List PyObj) (cs : Bool),
      batch_recursive_objects (PyObj.dict fs :: rest) cs =
        batch_recursive_objects (PyObj.dict fs :: rest) false) ∧
    (∀ (xs : List PyObj) (rest : List PyObj) (cs : Bool),
      batch_recursive_objects (PyObj.list xs :: rest) cs =
        batch_recursive_objects (PyObj.list xs :: rest) false) ∧
    (∀ (u : String) (fs : List (String × PyObj)) (rest : List PyObj) (cs : Bool),
      batch_recursive_objects (PyObj.namedtuple u fs :: rest) cs =
        batch_recursive_objects (PyObj.namedtuple u fs :: rest) false) ∧
    (∀ (xs : List PyObj) (rest : List PyObj) (cs : Bool),
      batch_recursive_objects (PyObj.tuple xs :: rest) cs =
        batch_recursive_objects (PyObj.tuple xs :: rest) false) := by
  refine ⟨?_, ?_, ?_, ?_, ?_, ?_⟩
  · intro s d rest hs hall
    have hself : sameStructure (PyObj.ndarray s d) (PyObj.ndarray s d) = true := by
      simp [sameStructure, hs]
    have hrest : ∀ x ∈ rest, sameStructure (PyObj.ndarray s d) x = true := by
      intro x hx
      obtain ⟨d2, hr⟩ := hall x hx
      subst hr
      simp [sameStructure, hs]
    have hcs : checkShapes (PyObj.ndarray s d) rest true = pure () := by
      rw [checkShapes, if_pos rfl, shapeOf, exceptMapM_shapeOf_const s rest hall]
      simp only [except_ok_bind]
      rw [if_pos (by
        rw [List.all_eq_true]
        intro x hx
        rw [List.mem_map] at hx
        obtain ⟨y, _, hy⟩ := hx
        rw [← hy]
        exact beq_self_eq_true s)]
    rw [batch_recursive_objects, batchGo, hcs]
    have h2 : batchGo (PyObj.ndarray s d) rest false =
        Except.ok (rest.foldl merge2 (PyObj.ndarray s d)) :=
      (batchGo_fold rest (PyObj.ndarray s d) hself hrest).1 rfl
    rw [batchGo] at h2
    simp only [checkShapes, Bool.false_eq_true, if_false, pure_bind] at h2
    simp only [pure_bind]
    exact h2
  · intro s d s2 d2 hne
    have hb : (s2 == s) = false := beq_eq_false_iff_ne.mpr hne
    rw [batch_recursive_objects, batchGo]
    rw [show checkShapes (PyObj.ndarray s d) [PyObj.ndarray s2 d2] true =
        Except.error PyError.assertionError from by
      rw [checkShapes, if_pos rfl, shapeOf]
      rw [show exceptMapM shapeOf [PyObj.ndarray s2 d2] = Except.ok [s2] from rfl]
      simp only [except_ok_bind]
      rw [if_neg (by
        rw [List.all_cons, List.all_nil, hb]
        simp)]
      rfl]
    rfl
  · intro fs rest cs
    simp only [batch_recursive_objects, batchGo]
  · intro xs rest cs
    simp only [batch_recursive_objects, batchGo]
  · intro u fs rest cs
    simp only [batch_recursive_objects, batchGo]
  · intro xs rest cs
    simp only [batch_recursive_objects, batchGo]

/-- C8 witness: the amended theorem applied concretely — equal-shape leaves
batch under the flag, a batch-size mismatch trips the assert, and the flag is
discarded for a dict record. -/
theorem batch_check_shape_amended_w :
    batch_recursive_objects [PyObj.ndarray [2] [1, 2], PyObj.ndarray [2] [3, 4]] true =
      Except.ok (PyObj.ndarray [4] [1, 2, 3, 4]) ∧
    batch_recursive_objects [PyObj.ndarray [1] [0], PyObj.ndarray [2] [5, 7]] true =
      Except.error PyError.assertionError ∧
    batch_recursive_objects [PyObj.dict []] true =
      batch_recursive_objects [PyObj.dict []] false := by
  refine ⟨?_, ?_, ?_⟩
  · have h := batch_check_shape_amended.1 [2] [1, 2] [PyObj.ndarray [2] [3, 4]] rfl
      (by
        intro x hx
        rw [List.mem_singleton] at hx
        exact ⟨[3, 4], hx⟩)
    rw [h]
    rfl
  · exact batch_check_shape_amended.2.1 [1] [0] [2] [5, 7] (by decide)
  · exact batch_check_shape_amended.2.2.1 [] [] true

/-- C10: batching an empty sequence of records never returns a value: `ls[0]`
raises IndexError for either setting of the shape-check flag. -/
theorem batch_empty_raises :
    batch_recursive_objects [] false = Except.error PyError.indexError ∧
    batch_recursive_objects [] true = Except.error PyError.indexError :=
  ⟨rfl, rfl⟩
